import Mathlib

/-!
Shallow embedding of the RMSC systematic-review screening pipeline
(scripts `02_layer1_exclusion.py`, `03_layer2_inclusion.py`,
`04_merge_results.py`) and proofs about its spec.

Python values parsed from model JSON are modelled by `Json` (with
`Json.null` standing for Python `None`, which is what `json.loads`
produces for JSON `null`).  Pandas dataframe cells are modelled by
`Cell`: either `NaN` (the float produced by `read_csv` for an empty
field) or a Python value.
-/

namespace RMSC

/-- A Python value of JSON shape.  `null` doubles as Python `None`.
Numbers are modelled as integers (the only numbers the pipeline stores
are token counts). -/
inductive Json where
  | null
  | bool (b : Bool)
  | num (n : Int)
  | str (s : String)
  | arr (elems : List Json)
  | obj (fields : List (String × Json))
deriving Repr

mutual

/-- Structural equality of Python JSON values (Python `==` restricted
to the value domain this pipeline stores: strings, `None`, numbers,
booleans and nests thereof). -/
def Json.beq : Json → Json → Bool
  | Json.null, Json.null => true
  | Json.bool a, Json.bool b => a == b
  | Json.num a, Json.num b => a == b
  | Json.str a, Json.str b => a == b
  | Json.arr a, Json.arr b => Json.beqArr a b
  | Json.obj a, Json.obj b => Json.beqObj a b
  | _, _ => false

/-- Elementwise equality of JSON arrays. -/
def Json.beqArr : List Json → List Json → Bool
  | [], [] => true
  | a :: as, b :: bs => Json.beq a b && Json.beqArr as bs
  | _, _ => false

/-- Fieldwise equality of JSON objects. -/
def Json.beqObj : List (String × Json) → List (String × Json) → Bool
  | [], [] => true
  | (k, v) :: as, (l, w) :: bs => k == l && Json.beq v w && Json.beqObj as bs
  | _, _ => false

end

/-- A pandas cell: `NaN` or an actual Python value. -/
inductive Cell where
  | nan
  | val (j : Json)
deriving Repr

/-- Python `==` on cells.  `NaN` compares unequal to everything,
itself included; values compare structurally (the dataframes here hold
only strings, `None` and `NaN`, where structural equality coincides
with Python `==`). -/
def cellEq : Cell → Cell → Bool
  | Cell.nan, _ => false
  | _, Cell.nan => false
  | Cell.val a, Cell.val b => Json.beq a b

/-- A dataframe row: one cell per column name (columns are unique). -/
abbrev Row := List (String × Cell)

/-- `row.get(col)` on a pandas `Series`: the cell when the column
exists (columns are unique, so the first match is it), Python `None`
otherwise. -/
def rowGet : Row → String → Cell
  | [], _ => Cell.val Json.null
  | p :: rest, col => if p.1 == col then p.2 else rowGet rest col

/-- Python `str()` of a cell, as used on `title` / `abstract`. -/
def pyStr (c : Cell) : String :=
  match c with
  | Cell.nan => "nan"
  | Cell.val Json.null => "None"
  | Cell.val (Json.bool true) => "True"
  | Cell.val (Json.bool false) => "False"
  | Cell.val (Json.num n) => toString n
  | Cell.val (Json.str s) => s
  | Cell.val (Json.arr _) => "[...]"
  | Cell.val (Json.obj _) => "\x7b...\x7d"

/-- Python `dict.get(k)`: the value when the key is present (keys are
unique). -/
def dictGet : List (String × Json) → String → Option Json
  | [], _ => none
  | p :: rest, k => if p.1 == k then some p.2 else dictGet rest k

/-- Python `dict.get(k, dflt)`. -/
def dictGetD (d : List (String × Json)) (k : String) (dflt : Json) : Json :=
  (dictGet d k).getD dflt

/-- Python `dict[k]`: raises `KeyError` when the key is missing. -/
def dictGetE (d : List (String × Json)) (k : String) : Except String Json :=
  match dictGet d k with
  | some v => Except.ok v
  | none => Except.error "KeyError"

/-- Python `dict[k] = v`: overwrite in place, or append preserving
insertion order. -/
def dictSet : List (String × Json) → String → Json → List (String × Json)
  | [], k, v => [(k, v)]
  | p :: rest, k, v =>
    if p.1 == k then (k, v) :: rest else p :: dictSet rest k v

/-- Python attribute access `.get` on a value that must be a dict:
anything else raises `AttributeError`. -/
def asObj : Json → Except String (List (String × Json))
  | Json.obj fields => Except.ok fields
  | _ => Except.error "AttributeError"

/-- Whether a value is a Python dict. -/
def isObjB : Json → Bool
  | Json.obj _ => true
  | _ => false

/-- The fields of an object, `[]` for anything else. -/
def objFields : Json → List (String × Json)
  | Json.obj fields => fields
  | _ => []

/-- The keys of `INCLUSION_TAGS` from `config.py`, in iteration
order. -/
def INCLUSION_TAGS : List String :=
  ["INC-1", "INC-2", "INC-3", "INC-4", "INC-5"]

/-- The per-tag loop of `extract_inclusion_result`: for each tag take
`inc_check.get(tag, {})` (which must be a dict) and read `status`
(default `"unclear"`) and `evidence` (default `None`). -/
def extractTags (inc_check : List (String × Json)) :
    List String → Except String (List (String × Json))
  | [] => Except.ok []
  | tag :: rest =>
    match asObj (dictGetD inc_check tag (Json.obj [])) with
    | Except.error e => Except.error e
    | Except.ok tag_data =>
      match extractTags inc_check rest with
      | Except.error e => Except.error e
      | Except.ok others =>
        Except.ok ((tag, Json.obj
          [("status", dictGetD tag_data "status" (Json.str "unclear")),
           ("evidence", dictGetD tag_data "evidence" Json.null)]) :: others)

/-- `extract_inclusion_result` from `03_layer2_inclusion.py`.  The
input is the parsed JSON; `.get` calls on non-dict values raise, which
the embedding surfaces as `Except.error`. -/
def extract_inclusion_result (parsed : Json) : Except String (List (String × Json)) :=
  match asObj parsed with
  | Except.error e => Except.error e
  | Except.ok p =>
    match asObj (dictGetD p "inclusion_check" (Json.obj [])) with
    | Except.error e => Except.error e
    | Except.ok inc_check =>
      match extractTags inc_check INCLUSION_TAGS with
      | Except.error e => Except.error e
      | Except.ok tags =>
        Except.ok
          [("decision", dictGetD p "decision" (Json.str "include")),
           ("confidence", dictGetD p "confidence" (Json.str "low")),
           ("reasoning", dictGetD p "reasoning" Json.null),
           ("inclusion_check", Json.obj tags),
           ("error", Json.null)]

/-- `tag.lower().replace("-", "")` from `flatten_result`: lower-case
every character and drop the dashes (replacement by the empty
string). -/
def tagKey (tag : String) : String :=
  String.mk ((tag.data.map Char.toLower).filter (fun c => c ≠ '-'))

/-- The per-tag loop of `flatten_result`: two columns per tag, with
`inc_data = result["inclusion_check"].get(tag, {})` required to be a
dict. -/
def flattenTags (pfx : String) (inc_fields : List (String × Json)) :
    List String → Except String (List (String × Json))
  | [] => Except.ok []
  | tag :: rest =>
    match asObj (dictGetD inc_fields tag (Json.obj [])) with
    | Except.error e => Except.error e
    | Except.ok inc_data =>
      match flattenTags pfx inc_fields rest with
      | Except.error e => Except.error e
      | Except.ok others =>
        Except.ok ((pfx ++ "_" ++ tagKey tag ++ "_status",
                      dictGetD inc_data "status" (Json.str "unclear")) ::
                   (pfx ++ "_" ++ tagKey tag ++ "_evidence",
                      dictGetD inc_data "evidence" Json.null) :: others)

/-- `flatten_result` from `03_layer2_inclusion.py`: the fixed CSV
column mapping.  `result["decision"]`, `result["confidence"]`,
`result["reasoning"]` and `result["inclusion_check"]` are mandatory
(`KeyError` otherwise); the rest use `.get` defaults. -/
def flatten_result (result : List (String × Json)) (pfx : String) :
    Except String (List (String × Json)) :=
  match dictGetE result "decision", dictGetE result "confidence",
        dictGetE result "reasoning" with
  | Except.ok decision, Except.ok confidence, Except.ok reasoning =>
    let base :=
      [(pfx ++ "_decision", decision),
       (pfx ++ "_confidence", confidence),
       (pfx ++ "_reasoning", reasoning),
       (pfx ++ "_error", dictGetD result "error" Json.null),
       (pfx ++ "_input_tokens", dictGetD result "input_tokens" (Json.num 0)),
       (pfx ++ "_output_tokens", dictGetD result "output_tokens" (Json.num 0)),
       (pfx ++ "_total_tokens", dictGetD result "total_tokens" (Json.num 0))]
    match dictGetE result "inclusion_check" with
    | Except.error e => Except.error e
    | Except.ok inc =>
      match asObj inc with
      | Except.error e => Except.error e
      | Except.ok inc_fields =>
        match flattenTags pfx inc_fields INCLUSION_TAGS with
        | Except.error e => Except.error e
        | Except.ok tagCols => Except.ok (base ++ tagCols)
  | Except.error e, _, _ => Except.error e
  | _, Except.error e, _ => Except.error e
  | _, _, Except.error e => Except.error e

/-- The 17 column names `flatten_result` produces for a given column
pfx. -/
def flatColumns (pfx : String) : List String :=
  [pfx ++ "_decision", pfx ++ "_confidence", pfx ++ "_reasoning",
   pfx ++ "_error", pfx ++ "_input_tokens", pfx ++ "_output_tokens",
   pfx ++ "_total_tokens",
   pfx ++ "_inc1_status", pfx ++ "_inc1_evidence",
   pfx ++ "_inc2_status", pfx ++ "_inc2_evidence",
   pfx ++ "_inc3_status", pfx ++ "_inc3_evidence",
   pfx ++ "_inc4_status", pfx ++ "_inc4_evidence",
   pfx ++ "_inc5_status", pfx ++ "_inc5_evidence"]

/-- The result dict of `determine_final_decision`
(`04_merge_results.py`). -/
structure FinalDecision where
  auto_decision : Json
  review_priority : Json
  review_reason : Json
deriving Repr

/-- `determine_final_decision` from `04_merge_results.py`, verbatim:
L1 exclude wins; otherwise the columns `L2_pro_decision` and
`L2_opus_decision` are compared. -/
def determine_final_decision (row : Row) : FinalDecision :=
  if cellEq (rowGet row "L1_decision") (Cell.val (Json.str "exclude")) then
    { auto_decision := Json.str "exclude"
      review_priority := Json.str "none"
      review_reason := Json.null }
  else
    let pro_decision := rowGet row "L2_pro_decision"
    let opus_decision := rowGet row "L2_opus_decision"
    if cellEq pro_decision opus_decision then
      if cellEq pro_decision (Cell.val (Json.str "include")) then
        { auto_decision := Json.str "include"
          review_priority := Json.str "high"
          review_reason := Json.str "Both models include - verify" }
      else
        { auto_decision := Json.str "exclude"
          review_priority := Json.str "low"
          review_reason := Json.str "Both models exclude" }
    else
      { auto_decision := Json.str "uncertain"
        review_priority := Json.str "high"
        review_reason := Json.str
          ("Disagreement: Pro=" ++ pyStr pro_decision ++ ", Opus=" ++ pyStr opus_decision) }

/-- One attempt of a Gemini call (Layer 1 or the Layer 2 judge): the
vendor call either raises, or yields a response whose text parses (via
`parse_json_response`) to `parsed` and whose `usage_metadata` carries
the three token counts. -/
inductive GeminiAttempt where
  | raise (msg : String)
  | reply (parsed : Option Json) (response_text : String)
      (input_tokens output_tokens total_tokens : Int)

/-- One attempt of the Claude call: either the vendor call raises, or
it yields text and thinking blocks (with `parsed` the value of
`parse_json_response` on the text block) and token usage. -/
inductive ClaudeAttempt where
  | raise (msg : String)
  | reply (parsed : Option Json) (response_text thinking_text : String)
      (input_tokens output_tokens : Int)

/-- Python truthiness of a JSON-shaped value. -/
def truthy : Json → Bool
  | Json.null => false
  | Json.bool b => b
  | Json.num n => n != 0
  | Json.str s => s != ""
  | Json.arr l => !l.isEmpty
  | Json.obj l => !l.isEmpty

/-- Python `"decision" in parsed`: key lookup for dicts, membership
for lists, substring for strings, `TypeError` otherwise. -/
def hasDecisionKey : Json → Except String Bool
  | Json.obj fields => Except.ok (fields.any (fun p => p.1 == "decision"))
  | Json.arr elems => Except.ok (elems.any (fun e => Json.beq e (Json.str "decision")))
  | Json.str s => Except.ok ((s.splitOn "decision").length > 1)
  | _ => Except.error "TypeError"

/-- The guard `if parsed and "decision" in parsed` (short-circuit: the
membership test is only reached when `parsed` is truthy). -/
def guardDecision : Option Json → Except String Bool
  | none => Except.ok false
  | some j => if truthy j then hasDecisionKey j else Except.ok false

/-- The success dict `screen_record_layer1` builds from a parsed
response (raises `AttributeError` when `parsed` is not a dict). -/
def layer1Success (parsed : Json) (response_text : String)
    (iTok oTok tTok : Int) : Except String (List (String × Json)) :=
  match asObj parsed with
  | Except.error e => Except.error e
  | Except.ok p =>
    Except.ok
    [("decision", dictGetD p "decision" (Json.str "pass")),
     ("exclusion_tags", dictGetD p "exclusion_tags" (Json.arr [])),
     ("evidence", dictGetD p "evidence" Json.null),
     ("reasoning", dictGetD p "reasoning" Json.null),
     ("error", Json.null),
     ("raw_response", Json.str (response_text.take 500)),
     ("input_tokens", Json.num iTok),
     ("output_tokens", Json.num oTok),
     ("total_tokens", Json.num tTok)]

/-- The dict `screen_record_layer1` returns when the last attempt
yields unparseable JSON. -/
def layer1InvalidJsonDict (response_text : String) : List (String × Json) :=
  [("decision", Json.str "pass"),
   ("exclusion_tags", Json.arr []),
   ("evidence", Json.null),
   ("reasoning", Json.str "JSON parsing failed"),
   ("error", Json.str ("Invalid JSON: " ++ response_text.take 200)),
   ("raw_response", Json.str (response_text.take 500))]

/-- The dict `screen_record_layer1` returns when the last attempt
raised. -/
def layer1ExceptionDict (msg : String) : List (String × Json) :=
  [("decision", Json.str "pass"),
   ("exclusion_tags", Json.arr []),
   ("evidence", Json.null),
   ("reasoning", Json.null),
   ("error", Json.str msg),
   ("raw_response", Json.null)]

/-- The dict after the `screen_record_layer1` loop body (only
reachable with `max_retries = 0`). -/
def layer1MaxRetriesDict : List (String × Json) :=
  [("decision", Json.str "pass"),
   ("exclusion_tags", Json.arr []),
   ("evidence", Json.null),
   ("reasoning", Json.null),
   ("error", Json.str "Max retries exceeded"),
   ("raw_response", Json.null)]

/-- The retry loop of `screen_record_layer1`.  `attempt` is the Python
loop variable; `remaining` is how many iterations of
`range(max_retries)` are left (`attempt < max_retries - 1` is
`remaining > 1`, i.e. the `remaining` left after this one is
positive).  The second component counts vendor calls made. -/
def layer1Go (outcomes : Nat → GeminiAttempt) (attempt : Nat) :
    Nat → List (String × Json) × Nat
  | 0 => (layer1MaxRetriesDict, 0)
  | remaining + 1 =>
    let recurse := fun (last : List (String × Json)) =>
      if remaining > 0 then
        let r := layer1Go outcomes (attempt + 1) remaining
        (r.1, r.2 + 1)
      else (last, 1)
    match outcomes attempt with
    | GeminiAttempt.raise msg => recurse (layer1ExceptionDict msg)
    | GeminiAttempt.reply parsed text iTok oTok tTok =>
      match guardDecision parsed with
      | Except.error msg => recurse (layer1ExceptionDict msg)
      | Except.ok false => recurse (layer1InvalidJsonDict text)
      | Except.ok true =>
        match parsed with
        | none => recurse (layer1InvalidJsonDict text)
        | some j =>
          match layer1Success j text iTok oTok tTok with
          | Except.ok d => (d, 1)
          | Except.error msg => recurse (layer1ExceptionDict msg)

/-- `screen_record_layer1` from `02_layer1_exclusion.py`, as a
function of the per-attempt vendor outcomes.  Returns the result dict
and the number of vendor calls made. -/
def screen_record_layer1 (outcomes : Nat → GeminiAttempt)
    (max_retries : Nat := 3) : List (String × Json) × Nat :=
  layer1Go outcomes 0 max_retries

/-- The `inclusion_check` default `{tag: {"status": "unclear",
"evidence": None} for tag in INCLUSION_TAGS}`. -/
def defaultIncCheck : Json :=
  Json.obj (INCLUSION_TAGS.map (fun tag =>
    (tag, Json.obj [("status", Json.str "unclear"), ("evidence", Json.null)])))

/-- The dict `screen_with_gemini_pro` and `screen_with_claude` return
when the last attempt raised. -/
def layer2ExceptionDict (msg : String) : List (String × Json) :=
  [("decision", Json.str "include"),
   ("confidence", Json.str "low"),
   ("reasoning", Json.null),
   ("inclusion_check", defaultIncCheck),
   ("error", Json.str msg),
   ("raw_response", Json.null)]

/-- The dict the two Layer 2 screeners return when every attempt
yields unparseable JSON. -/
def layer2MaxRetriesDict : List (String × Json) :=
  [("decision", Json.str "include"),
   ("confidence", Json.str "low"),
   ("reasoning", Json.str "Parsing failed"),
   ("inclusion_check", defaultIncCheck),
   ("error", Json.str "Max retries"),
   ("raw_response", Json.null)]

/-- The success path of `screen_with_gemini_pro`: the extracted result
plus `raw_response` and the three token counts. -/
def geminiSuccess (r : List (String × Json)) (text : String)
    (iTok oTok tTok : Int) : List (String × Json) :=
  dictSet (dictSet (dictSet (dictSet r
    "raw_response" (Json.str (text.take 500)))
    "input_tokens" (Json.num iTok))
    "output_tokens" (Json.num oTok))
    "total_tokens" (Json.num tTok)

/-- The retry loop of `screen_with_gemini_pro`.  On unparseable JSON
at the last attempt the loop falls through to the `"Max retries"`
dict; on an exception at the last attempt it returns the exception
dict. -/
def geminiGo (outcomes : Nat → GeminiAttempt) (attempt : Nat) :
    Nat → List (String × Json) × Nat
  | 0 => (layer2MaxRetriesDict, 0)
  | remaining + 1 =>
    let fallThrough :=
      let r := geminiGo outcomes (attempt + 1) remaining
      (r.1, r.2 + 1)
    let exnPath := fun (msg : String) =>
      if remaining > 0 then
        let r := geminiGo outcomes (attempt + 1) remaining
        (r.1, r.2 + 1)
      else (layer2ExceptionDict msg, 1)
    match outcomes attempt with
    | GeminiAttempt.raise msg => exnPath msg
    | GeminiAttempt.reply parsed text iTok oTok tTok =>
      match guardDecision parsed with
      | Except.error msg => exnPath msg
      | Except.ok false => fallThrough
      | Except.ok true =>
        match parsed with
        | none => fallThrough
        | some j =>
          match extract_inclusion_result j with
          | Except.ok r => (geminiSuccess r text iTok oTok tTok, 1)
          | Except.error msg => exnPath msg

/-- `screen_with_gemini_pro` from `03_layer2_inclusion.py`, as a
function of the per-attempt vendor outcomes.  Returns the result dict
and the number of vendor calls made. -/
def screen_with_gemini_pro (outcomes : Nat → GeminiAttempt)
    (max_retries : Nat := 3) : List (String × Json) × Nat :=
  geminiGo outcomes 0 max_retries

/-- The success path of `screen_with_claude`: the extracted result
plus `raw_response`, the (truncated) thinking text and token counts
(`total = input + output`). -/
def claudeSuccess (r : List (String × Json)) (text thinking : String)
    (iTok oTok : Int) : List (String × Json) :=
  dictSet (dictSet (dictSet (dictSet (dictSet r
    "raw_response" (Json.str (text.take 500)))
    "thinking" (Json.str (if thinking ≠ "" then thinking.take 1000 else "")))
    "input_tokens" (Json.num iTok))
    "output_tokens" (Json.num oTok))
    "total_tokens" (Json.num (iTok + oTok))

/-- The retry loop of `screen_with_claude`; same control flow as
`geminiGo`. -/
def claudeGo (outcomes : Nat → ClaudeAttempt) (attempt : Nat) :
    Nat → List (String × Json) × Nat
  | 0 => (layer2MaxRetriesDict, 0)
  | remaining + 1 =>
    let fallThrough :=
      let r := claudeGo outcomes (attempt + 1) remaining
      (r.1, r.2 + 1)
    let exnPath := fun (msg : String) =>
      if remaining > 0 then
        let r := claudeGo outcomes (attempt + 1) remaining
        (r.1, r.2 + 1)
      else (layer2ExceptionDict msg, 1)
    match outcomes attempt with
    | ClaudeAttempt.raise msg => exnPath msg
    | ClaudeAttempt.reply parsed text thinking iTok oTok =>
      match guardDecision parsed with
      | Except.error msg => exnPath msg
      | Except.ok false => fallThrough
      | Except.ok true =>
        match parsed with
        | none => fallThrough
        | some j =>
          match extract_inclusion_result j with
          | Except.ok r => (claudeSuccess r text thinking iTok oTok, 1)
          | Except.error msg => exnPath msg

/-- `screen_with_claude` from `03_layer2_inclusion.py`, as a function
of the per-attempt vendor outcomes. -/
def screen_with_claude (outcomes : Nat → ClaudeAttempt)
    (max_retries : Nat := 3) : List (String × Json) × Nat :=
  claudeGo outcomes 0 max_retries

/-- Whether a row has a column. -/
def rowHas : Row → String → Bool
  | [], _ => false
  | p :: rest, k => p.1 == k || rowHas rest k

/-- Overwrite a cell inside one row (append when the column is new to
the row). -/
def rowSet : Row → String → Cell → Row
  | [], k, v => [(k, v)]
  | p :: rest, k, v =>
    if p.1 == k then (k, v) :: rest else p :: rowSet rest k v

/-- Whether a dataframe has a column (rows are uniform, so any row
witnesses it). -/
def dfHasCol (df : List Row) (k : String) : Bool :=
  df.any (fun r => rowHas r k)

/-- `df[col] = None` for a fresh column: `None` in every row. -/
def dfAddCol (df : List Row) (k : String) : List Row :=
  if dfHasCol df k then df
  else df.map (fun r => r ++ [(k, Cell.val Json.null)])

/-- `df.at[idx, k] = v`: set one cell; when the column does not exist
yet, pandas enlarges the frame, filling the other rows with `NaN`. -/
def dfSetAt (df : List Row) (idx : Nat) (k : String) (v : Cell) : List Row :=
  let colExists :=
    match df[idx]? with
    | some r => rowHas r k
    | none => true
  df.enum.map (fun p =>
    if p.1 = idx then rowSet p.2 k v
    else if colExists then p.2 else p.2 ++ [(k, Cell.nan)])

/-- The `j`-th row of a dataframe (`[]` out of range). -/
def dfRow (df : List Row) (j : Nat) : Row :=
  (df[j]?).getD []

/-- pandas `notna` on a cell (`None` and `NaN` both count as
missing). -/
def cellNotNa : Cell → Bool
  | Cell.nan => false
  | Cell.val Json.null => false
  | Cell.val _ => true

/-- `df[col].notna().sum()`. -/
def countNotNa (df : List Row) (k : String) : Nat :=
  (df.filter (fun r => cellNotNa (rowGet r k))).length

/-- Python `not title.strip()`: true exactly when the string is empty
or whitespace-only (`strip` removes leading and trailing whitespace,
so the stripped string is falsy iff every character is whitespace). -/
def pyStripEmpty (s : String) : Bool :=
  s.data.all Char.isWhitespace

/-- The batch start offsets `range(start_idx, total, batch_size)`. -/
def batchStarts (start total bsz : Nat) : List Nat :=
  (List.range ((total - start + bsz - 1) / bsz)).map (fun i => start + i * bsz)

/-- `','.join(x) if x else ''` as applied to
`result['exclusion_tags']`: joins a list of strings (or the members of
any iterable of strings); falsy values give `''`; a truthy
non-iterable-of-strings raises `TypeError`. -/
def allStrings : List Json → Option (List String)
  | [] => some []
  | Json.str s :: rest => (allStrings rest).map (fun l => s :: l)
  | _ => none

/-- See `allStrings`: the join expression of the `L1_exclusion_tags`
update. -/
def joinComma : Json → Except String Json
  | Json.arr elems =>
    if elems.isEmpty then Except.ok (Json.str "")
    else
      match allStrings elems with
      | some strs => Except.ok (Json.str (String.intercalate "," strs))
      | none => Except.error "TypeError"
  | Json.str s =>
    if s == "" then Except.ok (Json.str "")
    else Except.ok (Json.str (String.intercalate ","
      (s.toList.map (fun c => String.mk [c]))))
  | Json.obj fields =>
    if fields.isEmpty then Except.ok (Json.str "")
    else Except.ok (Json.str (String.intercalate "," (fields.map (fun p => p.1))))
  | Json.null => Except.ok (Json.str "")
  | Json.bool b => if b then Except.error "TypeError" else Except.ok (Json.str "")
  | Json.num n => if n == 0 then Except.ok (Json.str "") else Except.error "TypeError"

/-- The nine dataframe assignments of the Layer 1 result-collection
loop, in source order, each paired with the value expression (which
may raise). -/
def l1Steps (result : List (String × Json)) (ts : String) :
    List (String × Except String Json) :=
  [("L1_decision", dictGetE result "decision"),
   ("L1_exclusion_tags",
      match dictGetE result "exclusion_tags" with
      | Except.ok tags => joinComma tags
      | Except.error e => Except.error e),
   ("L1_evidence", dictGetE result "evidence"),
   ("L1_reasoning", dictGetE result "reasoning"),
   ("L1_error", dictGetE result "error"),
   ("L1_timestamp", Except.ok (Json.str ts)),
   ("L1_input_tokens", Except.ok (dictGetD result "input_tokens" (Json.num 0))),
   ("L1_output_tokens", Except.ok (dictGetD result "output_tokens" (Json.num 0))),
   ("L1_total_tokens", Except.ok (dictGetD result "total_tokens" (Json.num 0)))]

/-- Execute the assignments in order; a raising expression aborts the
remaining ones and the `except` handler records `str(e)` in
`L1_error`. -/
def applyL1Steps (df : List Row) (idx : Nat) :
    List (String × Except String Json) → List Row
  | [] => df
  | (col, Except.ok v) :: rest => applyL1Steps (dfSetAt df idx col (Cell.val v)) idx rest
  | (_, Except.error e) :: _ => dfSetAt df idx "L1_error" (Cell.val (Json.str e))

/-- Store one Layer 1 screening result into the dataframe (lines
287-312 of `02_layer1_exclusion.py`). -/
def applyL1Result (df : List Row) (idx : Nat)
    (result : List (String × Json)) (ts : String) : List Row :=
  applyL1Steps df idx (l1Steps result ts)

/-- The new columns Layer 1 initializes. -/
def l1NewColumns : List String :=
  ["L1_decision", "L1_exclusion_tags", "L1_evidence", "L1_reasoning",
   "L1_error", "L1_timestamp", "L1_input_tokens", "L1_output_tokens",
   "L1_total_tokens"]

/-- The body of the Layer 1 batch loop for one row index: an empty or
whitespace-only title is answered inline without an API call (second
component `false`), anything else is submitted to the screener and
its result stored (second component `true`). -/
def l1ProcessIndex (df : List Row) (idx : Nat)
    (results : Nat → List (String × Json)) (now : Nat → String) :
    List Row × Bool :=
  let row := dfRow df idx
  let title := pyStr (rowGet row "title")
  if pyStripEmpty title then
    (dfSetAt (dfSetAt (dfSetAt df
        idx "L1_decision" (Cell.val (Json.str "pass")))
        idx "L1_reasoning" (Cell.val (Json.str "No title available")))
        idx "L1_timestamp" (Cell.val (Json.str (now idx))),
     false)
  else
    (applyL1Result df idx (results idx) (now idx), true)

/-- Run the Layer 1 loop body over a list of row indices, collecting
the indices submitted to the vendor API.  The updates touch
pairwise-distinct rows, so the submission order of the source's
future list determines the dataframe uniquely. -/
def l1RunIndices (results : Nat → List (String × Json)) (now : Nat → String) :
    List Nat → List Row → List Row × List Nat
  | [], df => (df, [])
  | idx :: rest, df =>
    let step := l1ProcessIndex df idx results now
    let r := l1RunIndices results now rest step.1
    (r.1, (if step.2 then [idx] else []) ++ r.2)

/-- Run the Layer 1 batches in order, snapshotting the dataframe to
the output CSV after each batch (the `saves` component). -/
def l1RunBatches (results : Nat → List (String × Json)) (now : Nat → String) :
    List (List Nat) → List Row → List Row × List Nat × List (List Row)
  | [], df => (df, [], [])
  | b :: rest, df =>
    let step := l1RunIndices results now b df
    let r := l1RunBatches results now rest step.1
    (r.1, step.2 ++ r.2.1, step.1 :: r.2.2)

/-- The observable outcome of a `process_screening` run: the final
dataframe, the indices submitted to the vendor API, and every
dataframe snapshot written to the output CSV. -/
structure L1Run where
  df : List Row
  submitted : List Nat
  saves : List (List Row)

/-- `process_screening` from `02_layer1_exclusion.py`.  `existingOut`
is the output CSV when it already exists, `answerYes` the reply to the
resume prompt, `results idx` the `screen_record_layer1` dict for row
`idx`, and `now idx` the timestamp written for it.  With `--resume N`
the source keeps the dataframe read from the *input* CSV and merely
starts the loop at `N`; only the detected-progress path swaps in the
existing output. -/
def process_screening (inputRows : List Row) (existingOut : Option (List Row))
    (resume_from : Option Nat) (answerYes : Bool)
    (results : Nat → List (String × Json)) (now : Nat → String)
    (batch_size : Nat) : L1Run :=
  let total := inputRows.length
  let df0 := l1NewColumns.foldl dfAddCol inputRows
  let dfStart :=
    match resume_from with
    | some n => (df0, n)
    | none =>
      match existingOut with
      | some edf =>
        if dfHasCol edf "L1_decision" then
          let processed := countNotNa edf "L1_decision"
          if 0 < processed ∧ answerYes then (edf, processed) else (df0, 0)
        else (df0, 0)
      | none => (df0, 0)
  let start := dfStart.2
  let batches := (batchStarts start total batch_size).map (fun b =>
    List.range' b (min (b + batch_size) total - b))
  let run := l1RunBatches results now batches dfStart.1
  { df := run.1, submitted := run.2.1, saves := run.2.2 ++ [run.1] }

/-- `models_agree` from the Layer 2 collection loop (line 465). -/
def l2_models_agree (proD sonD : Json) : Bool :=
  Json.beq proD sonD

/-- `needs_review` from the Layer 2 collection loop (lines 469-473). -/
def l2_needs_human_review (proD sonD : Json) : Bool :=
  !(l2_models_agree proD sonD) ||
  Json.beq proD (Json.str "include") ||
  Json.beq sonD (Json.str "include")

/-- The columns `process_layer2` initializes to `None` (lines
379-399). -/
def l2PrefixColumns (pfx : String) : List String :=
  [pfx ++ "_decision", pfx ++ "_confidence", pfx ++ "_reasoning", pfx ++ "_error",
   pfx ++ "_inc1_status", pfx ++ "_inc1_evidence",
   pfx ++ "_inc2_status", pfx ++ "_inc2_evidence",
   pfx ++ "_inc3_status", pfx ++ "_inc3_evidence",
   pfx ++ "_inc4_status", pfx ++ "_inc4_evidence",
   pfx ++ "_inc5_status", pfx ++ "_inc5_evidence"]

/-- See `l2PrefixColumns`: all columns initialized by
`process_layer2`. -/
def l2InitColumns : List String :=
  l2PrefixColumns "L2_pro" ++ l2PrefixColumns "L2_sonnet" ++
  ["L2_models_agree", "needs_human_review", "L2_timestamp"]

/-- Store one record's pair of judge results (lines 453-475): flatten
both, write every flattened column, then the agreement columns.  An
exception here (bad result dict) is uncaught in the source. -/
def applyL2Record (df : List Row) (idx : Nat)
    (pro son : List (String × Json)) (ts : String) :
    Except String (List Row) :=
  match flatten_result pro "L2_pro", flatten_result son "L2_sonnet" with
  | Except.ok pro_flat, Except.ok son_flat =>
    let df1 := (pro_flat ++ son_flat).foldl
      (fun d p => dfSetAt d idx p.1 (Cell.val p.2)) df
    match dictGetE pro "decision", dictGetE son "decision" with
    | Except.ok proD, Except.ok sonD =>
      let agree := l2_models_agree proD sonD
      let needs := l2_needs_human_review proD sonD
      Except.ok (dfSetAt (dfSetAt (dfSetAt df1
        idx "L2_models_agree" (Cell.val (Json.bool agree)))
        idx "needs_human_review" (Cell.val (Json.bool needs)))
        idx "L2_timestamp" (Cell.val (Json.str ts)))
    | Except.error e, _ => Except.error e
    | _, Except.error e => Except.error e
  | Except.error e, _ => Except.error e
  | _, Except.error e => Except.error e

/-- The row indices whose `L1_decision` equals `'pass'`. -/
def passIndices (rows : List Row) : List Nat :=
  (rows.enum.filter (fun p =>
    cellEq (rowGet p.2 "L1_decision") (Cell.val (Json.str "pass")))).map
    (fun p => p.1)

/-- The observable outcome of a `process_layer2` run. -/
structure L2Run where
  df : List Row
  submitted : List Nat

/-- The batch loops of `process_layer2`: store every record of the
index list in turn. -/
def applyL2All (results : Nat → List (String × Json) × List (String × Json))
    (now : Nat → String) : List Nat → List Row → Except String (List Row)
  | [], df => Except.ok df
  | idx :: rest, df =>
    match applyL2Record df idx (results idx).1 (results idx).2 (now idx) with
    | Except.ok df1 => applyL2All results now rest df1
    | Except.error e => Except.error e

/-- `process_layer2` from `03_layer2_inclusion.py`: keep the rows that
passed Layer 1 (from `start_idx` on when resuming), hand each to both
judges, and store the flattened results.  `results idx` is the pair of
judge dicts for row `idx`.  Batching only chunks the same index list
between checkpoint saves and the per-record updates touch distinct
rows, so the final dataframe is their sequential fold. -/
def process_layer2 (rows : List Row)
    (results : Nat → List (String × Json) × List (String × Json))
    (resume_from : Option Nat) (now : Nat → String) :
    Except String L2Run :=
  if !(dfHasCol rows "L1_decision") then
    Except.error "exit: L1_decision column not found"
  else
    let pass_indices := passIndices rows
    let df0 := l2InitColumns.foldl dfAddCol rows
    let start := resume_from.getD 0
    let todo := pass_indices.drop start
    match applyL2All results now todo df0 with
    | Except.error e => Except.error e
    | Except.ok df => Except.ok { df := df, submitted := todo }

/-- The per-tag value `extract_inclusion_result` records for a tag. -/
def extractedTag (incfs : List (String × Json)) (tag : String) : Json :=
  Json.obj
    [("status", dictGetD (objFields (dictGetD incfs tag (Json.obj []))) "status"
        (Json.str "unclear")),
     ("evidence", dictGetD (objFields (dictGetD incfs tag (Json.obj []))) "evidence"
        Json.null)]

/-- Whether `extract_inclusion_result` succeeds on a parsed value. -/
def extractOkB (j : Json) : Bool :=
  match extract_inclusion_result j with
  | Except.ok _ => true
  | Except.error _ => false

/-- Whether one Layer 1 attempt returns successfully from the loop
(the guard passes and the success dict is built without raising). -/
def l1AttemptSucceeds : GeminiAttempt → Bool
  | GeminiAttempt.raise _ => false
  | GeminiAttempt.reply parsed _ _ _ _ =>
    match guardDecision parsed with
    | Except.ok true =>
      match parsed with
      | some j => isObjB j
      | none => false
    | _ => false

/-- Whether one Gemini Layer 2 attempt returns successfully (the
guard passes and extraction does not raise). -/
def l2GeminiAttemptSucceeds : GeminiAttempt → Bool
  | GeminiAttempt.raise _ => false
  | GeminiAttempt.reply parsed _ _ _ _ =>
    match guardDecision parsed with
    | Except.ok true =>
      match parsed with
      | some j => extractOkB j
      | none => false
    | _ => false

/-- Whether one Claude attempt returns successfully. -/
def claudeAttemptSucceeds : ClaudeAttempt → Bool
  | ClaudeAttempt.raise _ => false
  | ClaudeAttempt.reply parsed _ _ _ _ =>
    match guardDecision parsed with
    | Except.ok true =>
      match parsed with
      | some j => extractOkB j
      | none => false
    | _ => false

/-- Whether a pair of judge result dicts is storable: both flatten
without raising and both carry a `decision` (true of everything the
two screeners return). -/
def l2ResultOk (pro son : List (String × Json)) : Bool :=
  (match flatten_result pro "L2_pro" with
   | Except.ok _ => true
   | Except.error _ => false) &&
  (match flatten_result son "L2_sonnet" with
   | Except.ok _ => true
   | Except.error _ => false) &&
  (dictGet pro "decision").isSome && (dictGet son "decision").isSome

/-! ### Generic row and dataframe lemmas -/

theorem string_append_assoc (a b c : String) : a ++ b ++ c = a ++ (b ++ c) := by
  apply congrArg String.mk
  show (a ++ b ++ c).data = (a ++ (b ++ c)).data
  simp

theorem rowGet_append_of_has (r : Row) (q : String × Cell) (c : String)
    (h : rowHas r c = true) : rowGet (r ++ [q]) c = rowGet r c := by
  induction r with
  | nil => simp [rowHas] at h
  | cons p rest ih =>
    by_cases hp : p.1 == c
    · simp [rowGet, hp]
    · have h' : rowHas rest c = true := by simpa [rowHas, hp] using h
      simp [rowGet, hp, ih h']

theorem rowGet_append_of_ne (r : Row) (q : String × Cell) (c : String)
    (h : ¬(q.1 = c)) : rowGet (r ++ [q]) c = rowGet r c := by
  induction r with
  | nil => simp [rowGet, h]
  | cons p rest ih =>
    by_cases hp : p.1 == c
    · simp [rowGet, hp]
    · simp [rowGet, hp, ih]

theorem rowSet_get_self (r : Row) (k : String) (v : Cell) :
    rowGet (rowSet r k v) k = v := by
  induction r with
  | nil => simp [rowSet, rowGet]
  | cons p rest ih =>
    by_cases hp : p.1 == k
    · simp [rowSet, rowGet, hp]
    · simp [rowSet, rowGet, hp, ih]

theorem rowSet_get_ne (r : Row) (k : String) (v : Cell) (c : String)
    (h : ¬(k = c)) : rowGet (rowSet r k v) c = rowGet r c := by
  induction r with
  | nil => simp [rowSet, rowGet, h]
  | cons p rest ih =>
    by_cases hp : p.1 == k
    · have hp' : p.1 = k := by simpa using hp
      have hpc : ¬(p.1 == c) := by simp [hp', h]
      have hkc : ¬((k : String) == c) := by simp [h]
      simp [rowSet, rowGet, hp, hpc, hkc]
    · simp [rowSet, rowGet, hp, ih]

theorem rowSet_has (r : Row) (k : String) (v : Cell) (c : String) :
    rowHas (rowSet r k v) c = (rowHas r c || k == c) := by
  induction r with
  | nil => simp [rowSet, rowHas]
  | cons p rest ih =>
    by_cases hp : p.1 == k
    · have hp' : p.1 = k := by simpa using hp
      by_cases hkc : (k : String) == c
      · simp [rowSet, rowHas, hp, hp', hkc]
      · simp [rowSet, rowHas, hp, hp', hkc]
    · simp [rowSet, rowHas, hp, ih, Bool.or_assoc]

theorem rowHas_append (r : Row) (q : String × Cell) (c : String) :
    rowHas (r ++ [q]) c = (rowHas r c || q.1 == c) := by
  induction r with
  | nil => simp [rowHas]
  | cons p rest ih => simp [rowHas, ih, Bool.or_assoc]

theorem rowGet_append_self (r : Row) (k : String) (v : Cell)
    (h : rowHas r k = false) : rowGet (r ++ [(k, v)]) k = v := by
  induction r with
  | nil => simp [rowGet]
  | cons p rest ih =>
    have hp : ¬(p.1 == k) = true := by
      intro hc
      simp [rowHas, hc] at h
    have h' : rowHas rest k = false := by
      cases hr : rowHas rest k with
      | false => rfl
      | true => simp [rowHas, hr] at h
    simp [rowGet, hp, ih h']

theorem rowHas_of_out_of_range (df : List Row) (j : Nat) (c : String)
    (h : df.length ≤ j) : rowHas (dfRow df j) c = false := by
  have : df[j]? = none := by simp [List.getElem?_eq_none h]
  simp [dfRow, this, rowHas]

theorem dfSetAt_length (df : List Row) (idx : Nat) (k : String) (v : Cell) :
    (dfSetAt df idx k v).length = df.length := by
  simp [dfSetAt]

theorem dfSetAt_getElem? (df : List Row) (idx : Nat) (k : String) (v : Cell)
    (j : Nat) :
    (dfSetAt df idx k v)[j]? = (df[j]?).map (fun r =>
      if j = idx then rowSet r k v
      else if (match df[idx]? with | some t => rowHas t k | none => true) then r
      else r ++ [(k, Cell.nan)]) := by
  simp only [dfSetAt, List.getElem?_map, List.getElem?_enum]
  cases df[j]? <;> rfl

theorem dfRow_setAt_self (df : List Row) (idx : Nat) (k : String) (v : Cell)
    (h : idx < df.length) :
    dfRow (dfSetAt df idx k v) idx = rowSet (dfRow df idx) k v := by
  have hj : df[idx]? = some df[idx] := List.getElem?_eq_getElem h
  simp [dfRow, dfSetAt_getElem?, hj]

theorem dfRow_setAt_other_get (df : List Row) (idx j : Nat) (k : String)
    (v : Cell) (c : String) (hji : j ≠ idx)
    (hc : rowHas (dfRow df j) c = true ∨ k ≠ c) :
    rowGet (dfRow (dfSetAt df idx k v) j) c = rowGet (dfRow df j) c := by
  cases hj : df[j]? with
  | none => simp [dfRow, dfSetAt_getElem?, hj]
  | some r =>
    have hr : dfRow df j = r := by simp [dfRow, hj]
    rw [hr] at hc
    simp only [dfRow, dfSetAt_getElem?, hj, hji, if_false]
    split
    · simp
    · rcases hc with hc | hc
      · simpa using rowGet_append_of_has r (k, Cell.nan) c hc
      · simpa using rowGet_append_of_ne r (k, Cell.nan) c hc

theorem dfRow_setAt_other_has (df : List Row) (idx j : Nat) (k : String)
    (v : Cell) (c : String) (hji : j ≠ idx)
    (hc : rowHas (dfRow df j) c = true) :
    rowHas (dfRow (dfSetAt df idx k v) j) c = true := by
  cases hj : df[j]? with
  | none =>
    rw [dfRow, hj] at hc
    simp [rowHas] at hc
  | some r =>
    have hr : dfRow df j = r := by simp [dfRow, hj]
    rw [hr] at hc
    simp only [dfRow, dfSetAt_getElem?, hj, Option.map_some, Option.getD_some, hji,
      if_false]
    split
    · exact hc
    · simp [rowHas_append, hc]

theorem dfRow_setAt_self_get_ne (df : List Row) (idx : Nat) (k : String)
    (v : Cell) (c : String) (h : idx < df.length) (hkc : ¬(k = c)) :
    rowGet (dfRow (dfSetAt df idx k v) idx) c = rowGet (dfRow df idx) c := by
  rw [dfRow_setAt_self df idx k v h]
  exact rowSet_get_ne _ k v c hkc

theorem dfRow_setAt_self_get (df : List Row) (idx : Nat) (k : String)
    (v : Cell) (h : idx < df.length) :
    rowGet (dfRow (dfSetAt df idx k v) idx) k = v := by
  rw [dfRow_setAt_self df idx k v h]
  exact rowSet_get_self _ k v

theorem dfRow_setAt_self_has (df : List Row) (idx : Nat) (k : String)
    (v : Cell) (c : String) (h : idx < df.length)
    (hc : rowHas (dfRow df idx) c = true) :
    rowHas (dfRow (dfSetAt df idx k v) idx) c = true := by
  rw [dfRow_setAt_self df idx k v h, rowSet_has]
  simp [hc]

theorem dfAddCol_length (df : List Row) (k : String) :
    (dfAddCol df k).length = df.length := by
  unfold dfAddCol
  split <;> simp

theorem dfHasCol_false_row (df : List Row) (k : String) (j : Nat)
    (h : dfHasCol df k = false) : rowHas (dfRow df j) k = false := by
  cases hj : df[j]? with
  | none => simp [dfRow, hj, rowHas]
  | some r =>
    have hmem : r ∈ df := by
      have := List.getElem?_eq_some.mp hj
      obtain ⟨hlt, hget⟩ := this
      rw [← hget]
      exact List.getElem_mem _
    have hall := List.any_eq_false.mp h
    have := hall r hmem
    simp [dfRow, hj]
    exact Bool.eq_false_iff.mpr this

theorem dfRow_addCol (df : List Row) (k : String) (j : Nat) (h : j < df.length) :
    dfRow (dfAddCol df k) j =
      if dfHasCol df k then dfRow df j
      else dfRow df j ++ [(k, Cell.val Json.null)] := by
  unfold dfAddCol
  have hj : df[j]? = some df[j] := List.getElem?_eq_getElem h
  split
  · rfl
  · simp [dfRow, List.getElem?_map, hj]

theorem dfRow_addCol_get (df : List Row) (k : String) (j : Nat) (c : String)
    (hc : rowHas (dfRow df j) c = true ∨ k ≠ c) :
    rowGet (dfRow (dfAddCol df k) j) c = rowGet (dfRow df j) c := by
  by_cases h : j < df.length
  · rw [dfRow_addCol df k j h]
    split
    · rfl
    · rcases hc with hc | hc
      · exact rowGet_append_of_has _ (k, Cell.val Json.null) c hc
      · exact rowGet_append_of_ne _ (k, Cell.val Json.null) c hc
  · have hlen : df.length ≤ j := Nat.le_of_not_lt h
    have h1 : df[j]? = none := by simp [List.getElem?_eq_none hlen]
    have h2 : (dfAddCol df k)[j]? = none := by
      apply List.getElem?_eq_none
      rw [dfAddCol_length]
      exact hlen
    simp [dfRow, h1, h2]

theorem dfRow_addCol_has (df : List Row) (k : String) (j : Nat) (c : String)
    (hc : rowHas (dfRow df j) c = true) :
    rowHas (dfRow (dfAddCol df k) j) c = true := by
  by_cases h : j < df.length
  · rw [dfRow_addCol df k j h]
    split
    · exact hc
    · simp [rowHas_append, hc]
  · have hlen : df.length ≤ j := Nat.le_of_not_lt h
    rw [rowHas_of_out_of_range df j c hlen] at hc
    exact absurd hc (by simp)

theorem dfRow_addCol_new (df : List Row) (k : String) (j : Nat)
    (h : j < df.length) (hnew : dfHasCol df k = false) :
    rowGet (dfRow (dfAddCol df k) j) k = Cell.val Json.null ∧
    rowHas (dfRow (dfAddCol df k) j) k = true := by
  rw [dfRow_addCol df k j h, hnew]
  simp only [if_false, Bool.false_eq_true]
  constructor
  · exact rowGet_append_self _ k _ (dfHasCol_false_row df k j hnew)
  · simp [rowHas_append]

/-! ### Claim theorems: the merge stage -/

/-- C5: any row whose `L1_decision` column equals `'exclude'` gets
`auto_decision 'exclude'` with `review_priority 'none'` from
`determine_final_decision`, whatever its Layer 2 columns hold. -/
theorem c5_l1_exclude_wins (row : Row)
    (h : cellEq (rowGet row "L1_decision") (Cell.val (Json.str "exclude")) = true) :
    determine_final_decision row =
      { auto_decision := Json.str "exclude", review_priority := Json.str "none",
        review_reason := Json.null } := by
  simp [determine_final_decision, h]

/-- Witness for `c5_l1_exclude_wins` at a concrete row that also
carries disagreeing Layer 2 decisions. -/
theorem c5_l1_exclude_wins_witness :
    determine_final_decision
      [("L1_decision", Cell.val (Json.str "exclude")),
       ("L2_pro_decision", Cell.val (Json.str "include")),
       ("L2_sonnet_decision", Cell.val (Json.str "exclude"))] =
      { auto_decision := Json.str "exclude", review_priority := Json.str "none",
        review_reason := Json.null } :=
  c5_l1_exclude_wins _ rfl

/-- C1: on the columns Layer 2 actually writes (`L2_pro_*` and
`L2_sonnet_*`), `determine_final_decision` answers `'uncertain'` with
`review_priority 'high'` even when both recorded decisions agree,
because it reads the absent column `L2_opus_decision` (which
`row.get` answers with `None`): the decision table never sees the
second judge. -/
theorem c1_merge_reads_absent_opus_column :
    determine_final_decision
      [("L1_decision", Cell.val (Json.str "pass")),
       ("L2_pro_decision", Cell.val (Json.str "exclude")),
       ("L2_sonnet_decision", Cell.val (Json.str "exclude"))] =
      { auto_decision := Json.str "uncertain", review_priority := Json.str "high",
        review_reason := Json.str "Disagreement: Pro=exclude, Opus=None" } ∧
    determine_final_decision
      [("L1_decision", Cell.val (Json.str "pass")),
       ("L2_pro_decision", Cell.val (Json.str "include")),
       ("L2_sonnet_decision", Cell.val (Json.str "include"))] =
      { auto_decision := Json.str "uncertain", review_priority := Json.str "high",
        review_reason := Json.str "Disagreement: Pro=include, Opus=None" } :=
  ⟨rfl, rfl⟩

/-! ### Claim theorems: Layer 2 agreement flags -/

/-- C9 counterexample: when both judges return the same decision
string outside `{'include', 'exclude'}` (reachable, since a parsed
`decision` field is stored as-is), `needs_human_review` is `False`
although neither decision equals `'exclude'`. -/
theorem c9_counterexample_nonbinary_decision :
    l2_needs_human_review (Json.str "both") (Json.str "both") = false ∧
    ¬(Json.str "both" = Json.str "exclude") := by
  constructor
  · rfl
  · intro h
    injection h with h'
    exact absurd h' (by decide)

/-- C9 (amended): `needs_human_review` is `False` exactly when the
two decisions are equal and neither equals `'include'`; when both
decisions lie in `{'include', 'exclude'}` this is exactly "both
`'exclude'`", and `L2_models_agree` is the equality of the two
decisions. -/
theorem c9_review_flag_characterization (proD sonD : Json) :
    (l2_models_agree proD sonD = Json.beq proD sonD) ∧
    (l2_needs_human_review proD sonD = false ↔
      (Json.beq proD sonD = true ∧ Json.beq proD (Json.str "include") = false ∧
       Json.beq sonD (Json.str "include") = false)) ∧
    ((proD = Json.str "include" ∨ proD = Json.str "exclude") →
     (sonD = Json.str "include" ∨ sonD = Json.str "exclude") →
     (l2_needs_human_review proD sonD = false ↔
       (proD = Json.str "exclude" ∧ sonD = Json.str "exclude"))) := by
  refine ⟨rfl, ?_, ?_⟩
  · simp [l2_needs_human_review, l2_models_agree, and_assoc]
  · rintro (rfl | rfl) (rfl | rfl) <;>
      simp [l2_needs_human_review, l2_models_agree, Json.beq]

/-- Witness for `c9_review_flag_characterization` at both judges
answering `'exclude'`. -/
theorem c9_review_flag_characterization_witness :
    l2_needs_human_review (Json.str "exclude") (Json.str "exclude") = false :=
  ((c9_review_flag_characterization (Json.str "exclude") (Json.str "exclude")).2.2
    (Or.inr rfl) (Or.inr rfl)).mpr ⟨rfl, rfl⟩

/-! ### Claim theorems: extract and flatten shapes -/

theorem asObj_of_isObjB {j : Json} (h : isObjB j = true) :
    asObj j = Except.ok (objFields j) := by
  cases j
  case obj fields => rfl
  all_goals simp [isObjB] at h

theorem extractTags_ok (incfs : List (String × Json)) :
    ∀ (tags : List String),
      (∀ tag ∈ tags, isObjB (dictGetD incfs tag (Json.obj [])) = true) →
      extractTags incfs tags =
        Except.ok (tags.map (fun tag => (tag, extractedTag incfs tag)))
  | [], _ => rfl
  | tag :: rest, h => by
    have h1 := h tag (List.mem_cons_self tag rest)
    have h2 := extractTags_ok incfs rest (fun t ht => h t (List.mem_cons_of_mem _ ht))
    simp [extractTags, asObj_of_isObjB h1, h2, extractedTag]

theorem flattenTags_ok (pfx : String) (incfs : List (String × Json)) :
    ∀ (tags : List String),
      (∀ tag ∈ tags, isObjB (dictGetD incfs tag (Json.obj [])) = true) →
      flattenTags pfx incfs tags =
        Except.ok ((tags.map (fun tag =>
          [(pfx ++ "_" ++ tagKey tag ++ "_status",
              dictGetD (objFields (dictGetD incfs tag (Json.obj []))) "status"
                (Json.str "unclear")),
           (pfx ++ "_" ++ tagKey tag ++ "_evidence",
              dictGetD (objFields (dictGetD incfs tag (Json.obj []))) "evidence"
                Json.null)])).flatten)
  | [], _ => rfl
  | tag :: rest, h => by
    have h1 := h tag (List.mem_cons_self tag rest)
    have h2 := flattenTags_ok pfx incfs rest
      (fun t ht => h t (List.mem_cons_of_mem _ ht))
    simp [flattenTags, asObj_of_isObjB h1, h2]

/-- C7 counterexample: a parsed dict whose `inclusion_check` value is
a string (so the guard `"decision" in parsed` still passes) makes
`extract_inclusion_result` raise `AttributeError` instead of
returning a result. -/
theorem c7_counterexample_nonobject_check :
    extract_inclusion_result
      (Json.obj [("decision", Json.str "include"),
                 ("inclusion_check", Json.str "yes")]) =
      Except.error "AttributeError" := rfl

/-- C7 (amended): for any parsed dict whose `inclusion_check` member
is a dict with dict-valued tag members, `extract_inclusion_result`
returns the fixed five-tag shape, each tag with a `status`
(defaulting to `'unclear'`) and an `evidence` field, and
`flatten_result` maps that result to exactly the 17 fixed columns. -/
theorem c7_extract_flatten_shape (p incfs : List (String × Json)) (pfx : String)
    (h1 : dictGetD p "inclusion_check" (Json.obj []) = Json.obj incfs)
    (h2 : ∀ tag ∈ INCLUSION_TAGS, isObjB (dictGetD incfs tag (Json.obj [])) = true) :
    ∃ r, extract_inclusion_result (Json.obj p) = Except.ok r ∧
      r = [("decision", dictGetD p "decision" (Json.str "include")),
           ("confidence", dictGetD p "confidence" (Json.str "low")),
           ("reasoning", dictGetD p "reasoning" Json.null),
           ("inclusion_check", Json.obj (INCLUSION_TAGS.map (fun tag =>
              (tag, extractedTag incfs tag)))),
           ("error", Json.null)] ∧
      ∃ cols, flatten_result r pfx = Except.ok cols ∧
        cols.map Prod.fst = flatColumns pfx := by
  have he := extractTags_ok incfs INCLUSION_TAGS h2
  have h2' : ∀ tag ∈ INCLUSION_TAGS,
      isObjB (dictGetD (INCLUSION_TAGS.map (fun tag =>
        (tag, extractedTag incfs tag))) tag (Json.obj [])) = true := by
    intro tag ht
    fin_cases ht <;> rfl
  have hf := flattenTags_ok pfx (INCLUSION_TAGS.map (fun tag =>
    (tag, extractedTag incfs tag))) INCLUSION_TAGS h2'
  refine ⟨_, ?_, rfl, ?_⟩
  · simp [extract_inclusion_result, asObj, h1, he]
  · simp only [flatten_result, dictGetE, dictGet, asObj, hf]
    refine ⟨_, rfl, ?_⟩
    simp only [flatColumns, INCLUSION_TAGS, List.map_cons, List.map_nil,
      List.flatten_cons, List.flatten_nil, List.map_append, List.append_nil,
      string_append_assoc]
    rfl

/-- Witness for `c7_extract_flatten_shape` at a concrete judge
response that reports only `INC-1`. -/
theorem c7_extract_flatten_shape_witness :
    ∃ r, extract_inclusion_result (Json.obj
        [("decision", Json.str "include"),
         ("inclusion_check", Json.obj
           [("INC-1", Json.obj
             [("status", Json.str "yes"), ("evidence", Json.str "e")])])]) =
      Except.ok r ∧
      r = [("decision", dictGetD
              [("decision", Json.str "include"),
               ("inclusion_check", Json.obj
                 [("INC-1", Json.obj
                   [("status", Json.str "yes"), ("evidence", Json.str "e")])])]
              "decision" (Json.str "include")),
           ("confidence", dictGetD
              [("decision", Json.str "include"),
               ("inclusion_check", Json.obj
                 [("INC-1", Json.obj
                   [("status", Json.str "yes"), ("evidence", Json.str "e")])])]
              "confidence" (Json.str "low")),
           ("reasoning", dictGetD
              [("decision", Json.str "include"),
               ("inclusion_check", Json.obj
                 [("INC-1", Json.obj
                   [("status", Json.str "yes"), ("evidence", Json.str "e")])])]
              "reasoning" Json.null),
           ("inclusion_check", Json.obj (INCLUSION_TAGS.map (fun tag =>
              (tag, extractedTag
                [("INC-1", Json.obj
                  [("status", Json.str "yes"), ("evidence", Json.str "e")])] tag)))),
           ("error", Json.null)] ∧
      ∃ cols, flatten_result r "L2_pro" = Except.ok cols ∧
        cols.map Prod.fst = flatColumns "L2_pro" :=
  c7_extract_flatten_shape
    [("decision", Json.str "include"),
     ("inclusion_check", Json.obj
       [("INC-1", Json.obj
         [("status", Json.str "yes"), ("evidence", Json.str "e")])])]
    [("INC-1", Json.obj [("status", Json.str "yes"), ("evidence", Json.str "e")])]
    "L2_pro" rfl (by intro tag ht; fin_cases ht <;> rfl)

/-! ### Claim theorems: the retry loops -/

theorem dictGet_set_ne (d : List (String × Json)) (k : String) (v : Json)
    (c : String) (h : ¬(k = c)) : dictGet (dictSet d k v) c = dictGet d c := by
  induction d with
  | nil => simp [dictSet, dictGet, h]
  | cons p rest ih =>
    by_cases hp : p.1 == k
    · have hp' : p.1 = k := by simpa using hp
      have hpc : ¬(p.1 == c) := by simp [hp', h]
      have hkc : ¬((k : String) == c) := by simp [h]
      simp [dictSet, dictGet, hp, hpc, hkc]
    · simp [dictSet, dictGet, hp, ih]

theorem extract_ok_keys {j : Json} {r : List (String × Json)}
    (h : extract_inclusion_result j = Except.ok r) :
    (dictGet r "decision").isSome = true ∧ (dictGet r "confidence").isSome = true ∧
    (dictGet r "reasoning").isSome = true ∧
    (dictGet r "inclusion_check").isSome = true ∧
    dictGet r "error" = some Json.null := by
  unfold extract_inclusion_result at h
  split at h
  · exact absurd h (by simp)
  · split at h
    · exact absurd h (by simp)
    · split at h
      · exact absurd h (by simp)
      · injection h with h'
        subst h'
        exact ⟨rfl, rfl, rfl, rfl, rfl⟩

theorem isObjB_false_asObj {j : Json} (h : isObjB j = false) :
    asObj j = Except.error "AttributeError" := by
  cases j
  case obj fields => simp [isObjB] at h
  all_goals rfl

theorem layer1Go_spec (outcomes : Nat → GeminiAttempt) :
    ∀ (r attempt : Nat),
      (layer1Go outcomes attempt r).2 ≤ r ∧
      (dictGet (layer1Go outcomes attempt r).1 "decision").isSome = true ∧
      (dictGet (layer1Go outcomes attempt r).1 "error").isSome = true
  | 0, _ => ⟨Nat.le_refl 0, rfl, rfl⟩
  | r + 1, attempt => by
    have ih := layer1Go_spec outcomes r (attempt + 1)
    have hrec : ∀ (last : List (String × Json)),
        (dictGet last "decision").isSome = true →
        (dictGet last "error").isSome = true →
        ((if r > 0 then
            ((layer1Go outcomes (attempt + 1) r).1,
             (layer1Go outcomes (attempt + 1) r).2 + 1)
          else (last, 1)) : List (String × Json) × Nat).2 ≤ r + 1 ∧
        (dictGet (if r > 0 then
            ((layer1Go outcomes (attempt + 1) r).1,
             (layer1Go outcomes (attempt + 1) r).2 + 1)
          else (last, 1)).1 "decision").isSome = true ∧
        (dictGet (if r > 0 then
            ((layer1Go outcomes (attempt + 1) r).1,
             (layer1Go outcomes (attempt + 1) r).2 + 1)
          else (last, 1)).1 "error").isSome = true := by
      intro last h1 h2
      by_cases hr : r > 0
      · simp only [hr, if_true]
        exact ⟨Nat.succ_le_succ ih.1, ih.2⟩
      · simp only [hr, if_false]
        exact ⟨by omega, h1, h2⟩
    show (layer1Go outcomes attempt (r + 1)).2 ≤ r + 1 ∧ _
    rw [layer1Go]
    cases ho : outcomes attempt with
    | raise msg =>
      dsimp only
      exact hrec (layer1ExceptionDict msg) rfl rfl
    | reply parsed text iTok oTok tTok =>
      dsimp only
      cases hg : guardDecision parsed with
      | error msg =>
        dsimp only
        exact hrec (layer1ExceptionDict msg) rfl rfl
      | ok b =>
        cases b with
        | false =>
          dsimp only
          exact hrec (layer1InvalidJsonDict text) rfl rfl
        | true =>
          cases parsed with
          | none =>
            dsimp only
            exact hrec (layer1InvalidJsonDict text) rfl rfl
          | some j =>
            cases j
            case obj fields =>
              dsimp only [layer1Success, asObj]
              exact ⟨by omega, rfl, rfl⟩
            all_goals
              dsimp only [layer1Success, asObj]
            all_goals
              exact hrec (layer1ExceptionDict "AttributeError") rfl rfl

theorem geminiGo_spec (outcomes : Nat → GeminiAttempt) :
    ∀ (r attempt : Nat),
      (geminiGo outcomes attempt r).2 ≤ r ∧
      (dictGet (geminiGo outcomes attempt r).1 "decision").isSome = true ∧
      (dictGet (geminiGo outcomes attempt r).1 "error").isSome = true
  | 0, _ => ⟨Nat.le_refl 0, rfl, rfl⟩
  | r + 1, attempt => by
    have ih := geminiGo_spec outcomes r (attempt + 1)
    have hrec : ∀ (last : List (String × Json)),
        (dictGet last "decision").isSome = true →
        (dictGet last "error").isSome = true →
        ((if r > 0 then
            ((geminiGo outcomes (attempt + 1) r).1,
             (geminiGo outcomes (attempt + 1) r).2 + 1)
          else (last, 1)) : List (String × Json) × Nat).2 ≤ r + 1 ∧
        (dictGet (if r > 0 then
            ((geminiGo outcomes (attempt + 1) r).1,
             (geminiGo outcomes (attempt + 1) r).2 + 1)
          else (last, 1)).1 "decision").isSome = true ∧
        (dictGet (if r > 0 then
            ((geminiGo outcomes (attempt + 1) r).1,
             (geminiGo outcomes (attempt + 1) r).2 + 1)
          else (last, 1)).1 "error").isSome = true := by
      intro last h1 h2
      by_cases hr : r > 0
      · simp only [hr, if_true]
        exact ⟨Nat.succ_le_succ ih.1, ih.2⟩
      · simp only [hr, if_false]
        exact ⟨by omega, h1, h2⟩
    show (geminiGo outcomes attempt (r + 1)).2 ≤ r + 1 ∧ _
    rw [geminiGo]
    cases ho : outcomes attempt with
    | raise msg =>
      dsimp only
      exact hrec (layer2ExceptionDict msg) rfl rfl
    | reply parsed text iTok oTok tTok =>
      dsimp only
      cases hg : guardDecision parsed with
      | error msg =>
        dsimp only
        exact hrec (layer2ExceptionDict msg) rfl rfl
      | ok b =>
        cases b with
        | false =>
          dsimp only
          exact ⟨Nat.succ_le_succ ih.1, ih.2.1, ih.2.2⟩
        | true =>
          cases parsed with
          | none =>
            dsimp only
            exact ⟨Nat.succ_le_succ ih.1, ih.2.1, ih.2.2⟩
          | some j =>
            dsimp only
            split
            next d heq =>
              have hk := extract_ok_keys heq
              refine ⟨by omega, ?_, ?_⟩
              · unfold geminiSuccess
                rw [dictGet_set_ne _ _ _ _ (by decide), dictGet_set_ne _ _ _ _ (by decide),
                    dictGet_set_ne _ _ _ _ (by decide), dictGet_set_ne _ _ _ _ (by decide)]
                exact hk.1
              · unfold geminiSuccess
                rw [dictGet_set_ne _ _ _ _ (by decide), dictGet_set_ne _ _ _ _ (by decide),
                    dictGet_set_ne _ _ _ _ (by decide), dictGet_set_ne _ _ _ _ (by decide),
                    hk.2.2.2.2]
                rfl
            next msg heq =>
              exact hrec (layer2ExceptionDict msg) rfl rfl

theorem claudeGo_spec (outcomes : Nat → ClaudeAttempt) :
    ∀ (r attempt : Nat),
      (claudeGo outcomes attempt r).2 ≤ r ∧
      (dictGet (claudeGo outcomes attempt r).1 "decision").isSome = true ∧
      (dictGet (claudeGo outcomes attempt r).1 "error").isSome = true
  | 0, _ => ⟨Nat.le_refl 0, rfl, rfl⟩
  | r + 1, attempt => by
    have ih := claudeGo_spec outcomes r (attempt + 1)
    have hrec : ∀ (last : List (String × Json)),
        (dictGet last "decision").isSome = true →
        (dictGet last "error").isSome = true →
        ((if r > 0 then
            ((claudeGo outcomes (attempt + 1) r).1,
             (claudeGo outcomes (attempt + 1) r).2 + 1)
          else (last, 1)) : List (String × Json) × Nat).2 ≤ r + 1 ∧
        (dictGet (if r > 0 then
            ((claudeGo outcomes (attempt + 1) r).1,
             (claudeGo outcomes (attempt + 1) r).2 + 1)
          else (last, 1)).1 "decision").isSome = true ∧
        (dictGet (if r > 0 then
            ((claudeGo outcomes (attempt + 1) r).1,
             (claudeGo outcomes (attempt + 1) r).2 + 1)
          else (last, 1)).1 "error").isSome = true := by
      intro last h1 h2
      by_cases hr : r > 0
      · simp only [hr, if_true]
        exact ⟨Nat.succ_le_succ ih.1, ih.2⟩
      · simp only [hr, if_false]
        exact ⟨by omega, h1, h2⟩
    show (claudeGo outcomes attempt (r + 1)).2 ≤ r + 1 ∧ _
    rw [claudeGo]
    cases ho : outcomes attempt with
    | raise msg =>
      dsimp only
      exact hrec (layer2ExceptionDict msg) rfl rfl
    | reply parsed text thinking iTok oTok =>
      dsimp only
      cases hg : guardDecision parsed with
      | error msg =>
        dsimp only
        exact hrec (layer2ExceptionDict msg) rfl rfl
      | ok b =>
        cases b with
        | false =>
          dsimp only
          exact ⟨Nat.succ_le_succ ih.1, ih.2.1, ih.2.2⟩
        | true =>
          cases parsed with
          | none =>
            dsimp only
            exact ⟨Nat.succ_le_succ ih.1, ih.2.1, ih.2.2⟩
          | some j =>
            dsimp only
            split
            next d heq =>
              have hk := extract_ok_keys heq
              refine ⟨by omega, ?_, ?_⟩
              · unfold claudeSuccess
                rw [dictGet_set_ne _ _ _ _ (by decide), dictGet_set_ne _ _ _ _ (by decide),
                    dictGet_set_ne _ _ _ _ (by decide), dictGet_set_ne _ _ _ _ (by decide),
                    dictGet_set_ne _ _ _ _ (by decide)]
                exact hk.1
              · unfold claudeSuccess
                rw [dictGet_set_ne _ _ _ _ (by decide), dictGet_set_ne _ _ _ _ (by decide),
                    dictGet_set_ne _ _ _ _ (by decide), dictGet_set_ne _ _ _ _ (by decide),
                    dictGet_set_ne _ _ _ _ (by decide), hk.2.2.2.2]
                rfl
            next msg heq =>
              exact hrec (layer2ExceptionDict msg) rfl rfl

/-- C3: for every sequence of vendor-call outcomes, each of the three
screeners makes at most `max_retries` vendor calls and returns (no
exception escapes the loop) a dict carrying both a `decision` and an
`error` key. -/
theorem c3_retry_bounded_total (o1 o2 : Nat → GeminiAttempt)
    (o3 : Nat → ClaudeAttempt) (m : Nat) :
    ((screen_record_layer1 o1 m).2 ≤ m ∧
     (dictGet (screen_record_layer1 o1 m).1 "decision").isSome = true ∧
     (dictGet (screen_record_layer1 o1 m).1 "error").isSome = true) ∧
    ((screen_with_gemini_pro o2 m).2 ≤ m ∧
     (dictGet (screen_with_gemini_pro o2 m).1 "decision").isSome = true ∧
     (dictGet (screen_with_gemini_pro o2 m).1 "error").isSome = true) ∧
    ((screen_with_claude o3 m).2 ≤ m ∧
     (dictGet (screen_with_claude o3 m).1 "decision").isSome = true ∧
     (dictGet (screen_with_claude o3 m).1 "error").isSome = true) :=
  ⟨layer1Go_spec o1 m 0, geminiGo_spec o2 m 0, claudeGo_spec o3 m 0⟩

theorem layer1Go_failure (outcomes : Nat → GeminiAttempt) :
    ∀ (r attempt : Nat),
      (∀ i, attempt ≤ i → i < attempt + r → l1AttemptSucceeds (outcomes i) = false) →
      ((∃ text, (layer1Go outcomes attempt r).1 = layer1InvalidJsonDict text) ∨
       (∃ msg, (layer1Go outcomes attempt r).1 = layer1ExceptionDict msg) ∨
       (layer1Go outcomes attempt r).1 = layer1MaxRetriesDict)
  | 0, attempt, _ => Or.inr (Or.inr rfl)
  | r + 1, attempt, h => by
    have hcur := h attempt (Nat.le_refl attempt) (by omega)
    have ih := layer1Go_failure outcomes r (attempt + 1)
      (fun i hi1 hi2 => h i (by omega) (by omega))
    have hrec : ∀ (last : List (String × Json)),
        ((∃ text, last = layer1InvalidJsonDict text) ∨
         (∃ msg, last = layer1ExceptionDict msg) ∨
         last = layer1MaxRetriesDict) →
        ((∃ text, (if r > 0 then
              ((layer1Go outcomes (attempt + 1) r).1,
               (layer1Go outcomes (attempt + 1) r).2 + 1)
            else (last, 1)).1 = layer1InvalidJsonDict text) ∨
         (∃ msg, (if r > 0 then
              ((layer1Go outcomes (attempt + 1) r).1,
               (layer1Go outcomes (attempt + 1) r).2 + 1)
            else (last, 1)).1 = layer1ExceptionDict msg) ∨
         (if r > 0 then
              ((layer1Go outcomes (attempt + 1) r).1,
               (layer1Go outcomes (attempt + 1) r).2 + 1)
            else (last, 1)).1 = layer1MaxRetriesDict) := by
      intro last hlast
      by_cases hr : r > 0
      · simp only [hr, if_true]
        exact ih
      · simp only [hr, if_false]
        exact hlast
    show (∃ text, (layer1Go outcomes attempt (r + 1)).1 = _) ∨ _
    rw [layer1Go]
    cases ho : outcomes attempt with
    | raise msg =>
      dsimp only
      exact hrec (layer1ExceptionDict msg) (Or.inr (Or.inl ⟨msg, rfl⟩))
    | reply parsed text iTok oTok tTok =>
      dsimp only
      rw [ho] at hcur
      cases hg : guardDecision parsed with
      | error msg =>
        dsimp only
        exact hrec (layer1ExceptionDict msg) (Or.inr (Or.inl ⟨msg, rfl⟩))
      | ok b =>
        cases b with
        | false =>
          dsimp only
          exact hrec (layer1InvalidJsonDict text) (Or.inl ⟨text, rfl⟩)
        | true =>
          cases parsed with
          | none =>
            dsimp only
            exact hrec (layer1InvalidJsonDict text) (Or.inl ⟨text, rfl⟩)
          | some j =>
            have hobj : isObjB j = false := by
              unfold l1AttemptSucceeds at hcur
              dsimp only at hcur
              rw [hg] at hcur
              dsimp only at hcur
              exact hcur
            cases j
            case obj fields => simp [isObjB] at hobj
            all_goals
              dsimp only [layer1Success, asObj]
            all_goals
              exact hrec (layer1ExceptionDict "AttributeError")
                (Or.inr (Or.inl ⟨"AttributeError", rfl⟩))

theorem geminiGo_failure (outcomes : Nat → GeminiAttempt) :
    ∀ (r attempt : Nat),
      (∀ i, attempt ≤ i → i < attempt + r → l2GeminiAttemptSucceeds (outcomes i) = false) →
      ((∃ msg, (geminiGo outcomes attempt r).1 = layer2ExceptionDict msg) ∨
       (geminiGo outcomes attempt r).1 = layer2MaxRetriesDict)
  | 0, attempt, _ => Or.inr rfl
  | r + 1, attempt, h => by
    have hcur := h attempt (Nat.le_refl attempt) (by omega)
    have ih := geminiGo_failure outcomes r (attempt + 1)
      (fun i hi1 hi2 => h i (by omega) (by omega))
    have hrec : ∀ (last : List (String × Json)),
        ((∃ msg, last = layer2ExceptionDict msg) ∨ last = layer2MaxRetriesDict) →
        ((∃ msg, (if r > 0 then
              ((geminiGo outcomes (attempt + 1) r).1,
               (geminiGo outcomes (attempt + 1) r).2 + 1)
            else (last, 1)).1 = layer2ExceptionDict msg) ∨
         (if r > 0 then
              ((geminiGo outcomes (attempt + 1) r).1,
               (geminiGo outcomes (attempt + 1) r).2 + 1)
            else (last, 1)).1 = layer2MaxRetriesDict) := by
      intro last hlast
      by_cases hr : r > 0
      · simp only [hr, if_true]
        exact ih
      · simp only [hr, if_false]
        exact hlast
    show (∃ msg, (geminiGo outcomes attempt (r + 1)).1 = _) ∨ _
    rw [geminiGo]
    cases ho : outcomes attempt with
    | raise msg =>
      dsimp only
      exact hrec (layer2ExceptionDict msg) (Or.inl ⟨msg, rfl⟩)
    | reply parsed text iTok oTok tTok =>
      dsimp only
      rw [ho] at hcur
      cases hg : guardDecision parsed with
      | error msg =>
        dsimp only
        exact hrec (layer2ExceptionDict msg) (Or.inl ⟨msg, rfl⟩)
      | ok b =>
        cases b with
        | false =>
          dsimp only
          exact ih
        | true =>
          cases parsed with
          | none =>
            dsimp only
            exact ih
          | some j =>
            have hext : extractOkB j = false := by
              unfold l2GeminiAttemptSucceeds at hcur
              dsimp only at hcur
              rw [hg] at hcur
              dsimp only at hcur
              exact hcur
            dsimp only
            split
            next d heq =>
              rw [extractOkB, heq] at hext
              exact absurd hext (by simp)
            next msg heq =>
              exact hrec (layer2ExceptionDict msg) (Or.inl ⟨msg, rfl⟩)

theorem claudeGo_failure (outcomes : Nat → ClaudeAttempt) :
    ∀ (r attempt : Nat),
      (∀ i, attempt ≤ i → i < attempt + r → claudeAttemptSucceeds (outcomes i) = false) →
      ((∃ msg, (claudeGo outcomes attempt r).1 = layer2ExceptionDict msg) ∨
       (claudeGo outcomes attempt r).1 = layer2MaxRetriesDict)
  | 0, attempt, _ => Or.inr rfl
  | r + 1, attempt, h => by
    have hcur := h attempt (Nat.le_refl attempt) (by omega)
    have ih := claudeGo_failure outcomes r (attempt + 1)
      (fun i hi1 hi2 => h i (by omega) (by omega))
    have hrec : ∀ (last : List (String × Json)),
        ((∃ msg, last = layer2ExceptionDict msg) ∨ last = layer2MaxRetriesDict) →
        ((∃ msg, (if r > 0 then
              ((claudeGo outcomes (attempt + 1) r).1,
               (claudeGo outcomes (attempt + 1) r).2 + 1)
            else (last, 1)).1 = layer2ExceptionDict msg) ∨
         (if r > 0 then
              ((claudeGo outcomes (attempt + 1) r).1,
               (claudeGo outcomes (attempt + 1) r).2 + 1)
            else (last, 1)).1 = layer2MaxRetriesDict) := by
      intro last hlast
      by_cases hr : r > 0
      · simp only [hr, if_true]
        exact ih
      · simp only [hr, if_false]
        exact hlast
    show (∃ msg, (claudeGo outcomes attempt (r + 1)).1 = _) ∨ _
    rw [claudeGo]
    cases ho : outcomes attempt with
    | raise msg =>
      dsimp only
      exact hrec (layer2ExceptionDict msg) (Or.inl ⟨msg, rfl⟩)
    | reply parsed text thinking iTok oTok =>
      dsimp only
      rw [ho] at hcur
      cases hg : guardDecision parsed with
      | error msg =>
        dsimp only
        exact hrec (layer2ExceptionDict msg) (Or.inl ⟨msg, rfl⟩)
      | ok b =>
        cases b with
        | false =>
          dsimp only
          exact ih
        | true =>
          cases parsed with
          | none =>
            dsimp only
            exact ih
          | some j =>
            have hext : extractOkB j = false := by
              unfold claudeAttemptSucceeds at hcur
              dsimp only at hcur
              rw [hg] at hcur
              dsimp only at hcur
              exact hcur
            dsimp only
            split
            next d heq =>
              rw [extractOkB, heq] at hext
              exact absurd hext (by simp)
            next msg heq =>
              exact hrec (layer2ExceptionDict msg) (Or.inl ⟨msg, rfl⟩)

theorem applyL1Result_stores_error (df : List Row) (idx : Nat) (ts : String)
    (d : List (String × Json)) (dec tagsJ ev rs e : Json)
    (hdec : dictGetE d "decision" = Except.ok dec)
    (htags : (match dictGetE d "exclusion_tags" with
              | Except.ok t => joinComma t
              | Except.error er => Except.error er) = Except.ok tagsJ)
    (hev : dictGetE d "evidence" = Except.ok ev)
    (hrs : dictGetE d "reasoning" = Except.ok rs)
    (herr : dictGetE d "error" = Except.ok e)
    (hlen : idx < df.length) :
    rowGet (dfRow (applyL1Result df idx d ts) idx) "L1_error" = Cell.val e := by
  unfold applyL1Result l1Steps
  rw [hdec, htags, hev, hrs, herr]
  simp only [applyL1Steps]
  rw [dfRow_setAt_self_get_ne _ _ _ _ _ (by simpa [dfSetAt_length] using hlen) (by decide),
      dfRow_setAt_self_get_ne _ _ _ _ _ (by simpa [dfSetAt_length] using hlen) (by decide),
      dfRow_setAt_self_get_ne _ _ _ _ _ (by simpa [dfSetAt_length] using hlen) (by decide),
      dfRow_setAt_self_get_ne _ _ _ _ _ (by simpa [dfSetAt_length] using hlen) (by decide)]
  exact dfRow_setAt_self_get _ _ _ _ (by simpa [dfSetAt_length] using hlen)

/-- C2: when every attempt fails (the vendor call raises, or the
reply is unparseable, or the success dict cannot be built), the
screeners return their defaults instead of raising: Layer 1 answers
`'pass'` and both Layer 2 judges answer `'include'` with confidence
`'low'`; the failure reason is a string in the returned `error`
field, and it is what Layer 1's collection loop stores in `L1_error`
and what `flatten_result` writes to the judge's `_error` column. -/
theorem c2_failure_defaults (o1 o2 : Nat → GeminiAttempt)
    (o3 : Nat → ClaudeAttempt) (m : Nat)
    (h1 : ∀ i, i < m → l1AttemptSucceeds (o1 i) = false)
    (h2 : ∀ i, i < m → l2GeminiAttemptSucceeds (o2 i) = false)
    (h3 : ∀ i, i < m → claudeAttemptSucceeds (o3 i) = false) :
    (dictGet (screen_record_layer1 o1 m).1 "decision" = some (Json.str "pass") ∧
     ∃ s, dictGet (screen_record_layer1 o1 m).1 "error" = some (Json.str s) ∧
       ∀ (df : List Row) (idx : Nat) (ts : String), idx < df.length →
         rowGet (dfRow (applyL1Result df idx (screen_record_layer1 o1 m).1 ts) idx)
           "L1_error" = Cell.val (Json.str s)) ∧
    (dictGet (screen_with_gemini_pro o2 m).1 "decision" = some (Json.str "include") ∧
     dictGet (screen_with_gemini_pro o2 m).1 "confidence" = some (Json.str "low") ∧
     ∃ s, dictGet (screen_with_gemini_pro o2 m).1 "error" = some (Json.str s) ∧
       ∃ cols, flatten_result (screen_with_gemini_pro o2 m).1 "L2_pro" = Except.ok cols ∧
         dictGet cols "L2_pro_error" = some (Json.str s)) ∧
    (dictGet (screen_with_claude o3 m).1 "decision" = some (Json.str "include") ∧
     dictGet (screen_with_claude o3 m).1 "confidence" = some (Json.str "low") ∧
     ∃ s, dictGet (screen_with_claude o3 m).1 "error" = some (Json.str s) ∧
       ∃ cols, flatten_result (screen_with_claude o3 m).1 "L2_sonnet" = Except.ok cols ∧
         dictGet cols "L2_sonnet_error" = some (Json.str s)) := by
  refine ⟨?_, ?_, ?_⟩
  · have hf := layer1Go_failure o1 m 0 (fun i hi1 hi2 => h1 i (by omega))
    unfold screen_record_layer1
    rcases hf with ⟨text, hd⟩ | ⟨msg, hd⟩ | hd <;> rw [hd]
    · exact ⟨rfl, "Invalid JSON: " ++ text.take 200, rfl,
        fun df idx ts hlen =>
          applyL1Result_stores_error df idx ts _ _ _ _ _ _ rfl rfl rfl rfl rfl hlen⟩
    · exact ⟨rfl, msg, rfl,
        fun df idx ts hlen =>
          applyL1Result_stores_error df idx ts _ _ _ _ _ _ rfl rfl rfl rfl rfl hlen⟩
    · exact ⟨rfl, "Max retries exceeded", rfl,
        fun df idx ts hlen =>
          applyL1Result_stores_error df idx ts _ _ _ _ _ _ rfl rfl rfl rfl rfl hlen⟩
  · have hf := geminiGo_failure o2 m 0 (fun i hi1 hi2 => h2 i (by omega))
    unfold screen_with_gemini_pro
    rcases hf with ⟨msg, hd⟩ | hd <;> rw [hd]
    · exact ⟨rfl, rfl, msg, rfl, _, rfl, rfl⟩
    · exact ⟨rfl, rfl, "Max retries", rfl, _, rfl, rfl⟩
  · have hf := claudeGo_failure o3 m 0 (fun i hi1 hi2 => h3 i (by omega))
    unfold screen_with_claude
    rcases hf with ⟨msg, hd⟩ | hd <;> rw [hd]
    · exact ⟨rfl, rfl, msg, rfl, _, rfl, rfl⟩
    · exact ⟨rfl, rfl, "Max retries", rfl, _, rfl, rfl⟩

/-- Witness for `c2_failure_defaults`: every attempt of every
screener raises. -/
theorem c2_failure_defaults_witness :
    dictGet (screen_record_layer1 (fun _ => GeminiAttempt.raise "boom") 3).1
        "decision" = some (Json.str "pass") ∧
    dictGet (screen_with_gemini_pro (fun _ => GeminiAttempt.raise "boom") 3).1
        "decision" = some (Json.str "include") ∧
    dictGet (screen_with_claude (fun _ => ClaudeAttempt.raise "boom") 3).1
        "decision" = some (Json.str "include") := by
  have h := c2_failure_defaults (fun _ => GeminiAttempt.raise "boom")
    (fun _ => GeminiAttempt.raise "boom") (fun _ => ClaudeAttempt.raise "boom") 3
    (fun i _ => rfl) (fun i _ => rfl) (fun i _ => rfl)
  exact ⟨h.1.1, h.2.1.1, h.2.2.1⟩

/-! ### Claim theorems: the Layer 2 frame property -/

theorem dfFold_preserve (idx j : Nat) (c : String) (hji : j ≠ idx) :
    ∀ (pairs : List (String × Json)) (df : List Row),
      ((pairs.foldl (fun d p => dfSetAt d idx p.1 (Cell.val p.2)) df).length
        = df.length) ∧
      (rowHas (dfRow df j) c = true →
        rowGet (dfRow (pairs.foldl (fun d p =>
            dfSetAt d idx p.1 (Cell.val p.2)) df) j) c = rowGet (dfRow df j) c ∧
        rowHas (dfRow (pairs.foldl (fun d p =>
            dfSetAt d idx p.1 (Cell.val p.2)) df) j) c = true)
  | [], df => ⟨rfl, fun h => ⟨rfl, h⟩⟩
  | q :: rest, df => by
    have ih := dfFold_preserve idx j c hji rest (dfSetAt df idx q.1 (Cell.val q.2))
    refine ⟨?_, ?_⟩
    · simp only [List.foldl_cons]
      rw [ih.1, dfSetAt_length]
    · intro h
      have h1 := dfRow_setAt_other_get df idx j q.1 (Cell.val q.2) c hji (Or.inl h)
      have h2 := dfRow_setAt_other_has df idx j q.1 (Cell.val q.2) c hji h
      have := ih.2 h2
      simp only [List.foldl_cons]
      exact ⟨by rw [this.1, h1], this.2⟩

theorem applyL2Record_props (df : List Row) (idx : Nat)
    (pro son : List (String × Json)) (ts : String)
    (hok : l2ResultOk pro son = true) :
    ∃ df', applyL2Record df idx pro son ts = Except.ok df' ∧
      df'.length = df.length ∧
      ∀ j c, j ≠ idx → rowHas (dfRow df j) c = true →
        rowGet (dfRow df' j) c = rowGet (dfRow df j) c ∧
        rowHas (dfRow df' j) c = true := by
  unfold l2ResultOk at hok
  cases hfp : flatten_result pro "L2_pro" with
  | error e => rw [hfp] at hok; simp at hok
  | ok pro_flat =>
    cases hfs : flatten_result son "L2_sonnet" with
    | error e => rw [hfp, hfs] at hok; simp at hok
    | ok son_flat =>
      cases hdp : dictGet pro "decision" with
      | none => rw [hfp, hfs, hdp] at hok; simp at hok
      | some proD =>
        cases hds : dictGet son "decision" with
        | none => rw [hfp, hfs, hdp, hds] at hok; simp at hok
        | some sonD =>
          refine ⟨dfSetAt (dfSetAt (dfSetAt ((pro_flat ++ son_flat).foldl
              (fun d p => dfSetAt d idx p.1 (Cell.val p.2)) df)
              idx "L2_models_agree"
              (Cell.val (Json.bool (l2_models_agree proD sonD))))
              idx "needs_human_review"
              (Cell.val (Json.bool (l2_needs_human_review proD sonD))))
              idx "L2_timestamp" (Cell.val (Json.str ts)), ?_, ?_, ?_⟩
          · unfold applyL2Record
            rw [hfp, hfs]
            dsimp only
            rw [show dictGetE pro "decision" = Except.ok proD by
                  simp [dictGetE, hdp],
                show dictGetE son "decision" = Except.ok sonD by
                  simp [dictGetE, hds]]
          · simp only [dfSetAt_length]
            exact (dfFold_preserve idx (idx + 1) "x" (by omega)
              (pro_flat ++ son_flat) df).1
          · intro j c hji h
            have hfold := (dfFold_preserve idx j c hji (pro_flat ++ son_flat) df).2 h
            have s1g := dfRow_setAt_other_get _ idx j "L2_models_agree"
              (Cell.val (Json.bool (l2_models_agree proD sonD))) c hji
              (Or.inl hfold.2)
            have s1h := dfRow_setAt_other_has _ idx j "L2_models_agree"
              (Cell.val (Json.bool (l2_models_agree proD sonD))) c hji hfold.2
            have s2g := dfRow_setAt_other_get _ idx j "needs_human_review"
              (Cell.val (Json.bool (l2_needs_human_review proD sonD))) c hji
              (Or.inl s1h)
            have s2h := dfRow_setAt_other_has _ idx j "needs_human_review"
              (Cell.val (Json.bool (l2_needs_human_review proD sonD))) c hji s1h
            have s3g := dfRow_setAt_other_get _ idx j "L2_timestamp"
              (Cell.val (Json.str ts)) c hji (Or.inl s2h)
            have s3h := dfRow_setAt_other_has _ idx j "L2_timestamp"
              (Cell.val (Json.str ts)) c hji s2h
            constructor
            · rw [s3g, s2g, s1g, hfold.1]
            · exact s3h

theorem applyL2All_props
    (results : Nat → List (String × Json) × List (String × Json))
    (now : Nat → String) :
    ∀ (todo : List Nat) (df : List Row),
      (∀ idx ∈ todo, l2ResultOk (results idx).1 (results idx).2 = true) →
      ∃ df', applyL2All results now todo df = Except.ok df' ∧
        df'.length = df.length ∧
        ∀ j c, j ∉ todo → rowHas (dfRow df j) c = true →
          rowGet (dfRow df' j) c = rowGet (dfRow df j) c ∧
          rowHas (dfRow df' j) c = true
  | [], df, _ => ⟨df, rfl, rfl, fun _ _ _ h => ⟨rfl, h⟩⟩
  | idx :: rest, df, h => by
    obtain ⟨df1, hd1, hlen1, hpres1⟩ :=
      applyL2Record_props df idx (results idx).1 (results idx).2 (now idx)
        (h idx (List.mem_cons_self idx rest))
    obtain ⟨df', hd', hlen', hpres'⟩ := applyL2All_props results now rest df1
      (fun i hi => h i (List.mem_cons_of_mem _ hi))
    refine ⟨df', ?_, by rw [hlen', hlen1], ?_⟩
    · simp only [applyL2All, hd1]
      exact hd'
    · intro j c hj hhas
      have hji : j ≠ idx := fun he => hj (he ▸ List.mem_cons_self idx rest)
      have hjr : j ∉ rest := fun he => hj (List.mem_cons_of_mem _ he)
      have h1 := hpres1 j c hji hhas
      have h2 := hpres' j c hjr h1.2
      exact ⟨by rw [h2.1, h1.1], h2.2⟩

theorem addCols_props (j : Nat) (c : String) :
    ∀ (cols : List String) (df : List Row),
      ((cols.foldl dfAddCol df).length = df.length) ∧
      (rowHas (dfRow df j) c = true →
        rowGet (dfRow (cols.foldl dfAddCol df) j) c = rowGet (dfRow df j) c ∧
        rowHas (dfRow (cols.foldl dfAddCol df) j) c = true)
  | [], df => ⟨rfl, fun h => ⟨rfl, h⟩⟩
  | c0 :: rest, df => by
    have ih := addCols_props j c rest (dfAddCol df c0)
    refine ⟨?_, ?_⟩
    · simp only [List.foldl_cons]
      rw [ih.1, dfAddCol_length]
    · intro h
      have h1 := dfRow_addCol_get df c0 j c (Or.inl h)
      have h2 := dfRow_addCol_has df c0 j c h
      have := ih.2 h2
      simp only [List.foldl_cons]
      exact ⟨by rw [this.1, h1], this.2⟩

theorem dfHasCol_addCol_ne (df : List Row) (c0 c : String) (h : ¬(c0 = c)) :
    dfHasCol (dfAddCol df c0) c = dfHasCol df c := by
  unfold dfAddCol
  split
  · rfl
  · have hbe : ((c0 : String) == c) = false := by simp [h]
    simp [dfHasCol, List.any_map, Function.comp_def, rowHas_append, hbe]

theorem addCols_null (j : Nat) (c : String) :
    ∀ (cols : List String) (df : List Row), c ∈ cols →
      dfHasCol df c = false → j < df.length →
      rowGet (dfRow (cols.foldl dfAddCol df) j) c = Cell.val Json.null ∧
      rowHas (dfRow (cols.foldl dfAddCol df) j) c = true
  | [], _, hc, _, _ => absurd hc (List.not_mem_nil _)
  | c0 :: rest, df, hc, hnew, hj => by
    by_cases he : c0 = c
    · subst he
      have hn := dfRow_addCol_new df c0 j hj hnew
      have hp := (addCols_props j c0 rest (dfAddCol df c0)).2 hn.2
      simp only [List.foldl_cons]
      exact ⟨by rw [hp.1, hn.1], hp.2⟩
    · have hc' : c ∈ rest := by
        rcases List.mem_cons.mp hc with h1 | h1
        · exact absurd h1.symm he
        · exact h1
      have hnew' : dfHasCol (dfAddCol df c0) c = false := by
        rw [dfHasCol_addCol_ne df c0 c he]
        exact hnew
      have hj' : j < (dfAddCol df c0).length := by
        rw [dfAddCol_length]
        exact hj
      have := addCols_null j c rest (dfAddCol df c0) hc' hnew' hj'
      simpa only [List.foldl_cons] using this

/-- C4: with no resume index, `process_layer2` submits to the judges
exactly the rows whose `L1_decision` is `'pass'`; every other row
keeps all its pre-existing column values and its newly added Layer 2
columns stay `None`. -/
theorem c4_layer2_frame (rows : List Row)
    (results : Nat → List (String × Json) × List (String × Json))
    (now : Nat → String)
    (hcol : dfHasCol rows "L1_decision" = true)
    (hok : ∀ idx ∈ passIndices rows, l2ResultOk (results idx).1 (results idx).2 = true)
    (hfresh : ∀ c ∈ l2InitColumns, dfHasCol rows c = false) :
    ∃ out, process_layer2 rows results none now = Except.ok out ∧
      out.submitted = passIndices rows ∧
      out.df.length = rows.length ∧
      ∀ j, j ∉ passIndices rows →
        (∀ c, rowHas (dfRow rows j) c = true →
          rowGet (dfRow out.df j) c = rowGet (dfRow rows j) c) ∧
        (j < rows.length → ∀ c ∈ l2InitColumns,
          rowGet (dfRow out.df j) c = Cell.val Json.null) := by
  obtain ⟨df', hall, hlen, hpres⟩ := applyL2All_props results now (passIndices rows)
    (l2InitColumns.foldl dfAddCol rows) hok
  refine ⟨⟨df', passIndices rows⟩, ?_, rfl, ?_, ?_⟩
  · simp [process_layer2, hcol, List.drop_zero, hall]
  · rw [hlen]
    exact (addCols_props 0 "L1_decision" l2InitColumns rows).1
  · intro j hj
    constructor
    · intro c hc
      have hinit := (addCols_props j c l2InitColumns rows).2 hc
      have h2 := hpres j c hj hinit.2
      rw [h2.1, hinit.1]
    · intro hjlen c hcmem
      have hnew := hfresh c hcmem
      have hinit := addCols_null j c l2InitColumns rows hcmem hnew hjlen
      have h2 := hpres j c hj hinit.2
      rw [h2.1, hinit.1]

/-- Witness for `c4_layer2_frame`: a two-row frame where only row 0
passed Layer 1. -/
theorem c4_layer2_frame_witness :
    ∃ out, process_layer2
        [[("L1_decision", Cell.val (Json.str "pass"))],
         [("L1_decision", Cell.val (Json.str "exclude"))]]
        (fun _ =>
          ([("decision", Json.str "exclude"), ("confidence", Json.str "high"),
            ("reasoning", Json.null), ("inclusion_check", Json.obj []),
            ("error", Json.null)],
           [("decision", Json.str "exclude"), ("confidence", Json.str "high"),
            ("reasoning", Json.null), ("inclusion_check", Json.obj []),
            ("error", Json.null)]))
        none (fun _ => "t") = Except.ok out ∧
      out.submitted = passIndices
        [[("L1_decision", Cell.val (Json.str "pass"))],
         [("L1_decision", Cell.val (Json.str "exclude"))]] := by
  obtain ⟨out, h1, h2, _⟩ := c4_layer2_frame
    [[("L1_decision", Cell.val (Json.str "pass"))],
     [("L1_decision", Cell.val (Json.str "exclude"))]]
    (fun _ =>
      ([("decision", Json.str "exclude"), ("confidence", Json.str "high"),
        ("reasoning", Json.null), ("inclusion_check", Json.obj []),
        ("error", Json.null)],
       [("decision", Json.str "exclude"), ("confidence", Json.str "high"),
        ("reasoning", Json.null), ("inclusion_check", Json.obj []),
        ("error", Json.null)]))
    (fun _ => "t") rfl (fun idx _ => rfl) (by intro c hc; fin_cases hc <;> rfl)
  exact ⟨out, h1, h2⟩

/-! ### Claim theorems: Layer 1 checkpoint resume -/

/-- C6: resuming with `--resume 1` reloads the dataframe from the
input CSV, so row 0's previously saved `L1_decision 'exclude'` is
reset to `None` and the next checkpoint save overwrites the output
CSV without it; only the detected-progress path (no `--resume` flag,
prompt answered yes) keeps row 0's saved value.  Both paths screen
only rows with index `>= 1`. -/
theorem c6_resume_discards_saved_rows :
    (process_screening
        [[("title", Cell.val (Json.str "T0"))], [("title", Cell.val (Json.str "T1"))]]
        (some [[("title", Cell.val (Json.str "T0")),
                ("L1_decision", Cell.val (Json.str "exclude"))],
               [("title", Cell.val (Json.str "T1")),
                ("L1_decision", Cell.nan)]])
        (some 1) true
        (fun _ => [("decision", Json.str "pass"), ("exclusion_tags", Json.arr []),
                   ("evidence", Json.null), ("reasoning", Json.str "ok"),
                   ("error", Json.null)])
        (fun _ => "ts") 50).submitted = [1] ∧
    rowGet (dfRow (process_screening
        [[("title", Cell.val (Json.str "T0"))], [("title", Cell.val (Json.str "T1"))]]
        (some [[("title", Cell.val (Json.str "T0")),
                ("L1_decision", Cell.val (Json.str "exclude"))],
               [("title", Cell.val (Json.str "T1")),
                ("L1_decision", Cell.nan)]])
        (some 1) true
        (fun _ => [("decision", Json.str "pass"), ("exclusion_tags", Json.arr []),
                   ("evidence", Json.null), ("reasoning", Json.str "ok"),
                   ("error", Json.null)])
        (fun _ => "ts") 50).df 0) "L1_decision" = Cell.val Json.null ∧
    (process_screening
        [[("title", Cell.val (Json.str "T0"))], [("title", Cell.val (Json.str "T1"))]]
        (some [[("title", Cell.val (Json.str "T0")),
                ("L1_decision", Cell.val (Json.str "exclude"))],
               [("title", Cell.val (Json.str "T1")),
                ("L1_decision", Cell.nan)]])
        none true
        (fun _ => [("decision", Json.str "pass"), ("exclusion_tags", Json.arr []),
                   ("evidence", Json.null), ("reasoning", Json.str "ok"),
                   ("error", Json.null)])
        (fun _ => "ts") 50).submitted = [1] ∧
    rowGet (dfRow (process_screening
        [[("title", Cell.val (Json.str "T0"))], [("title", Cell.val (Json.str "T1"))]]
        (some [[("title", Cell.val (Json.str "T0")),
                ("L1_decision", Cell.val (Json.str "exclude"))],
               [("title", Cell.val (Json.str "T1")),
                ("L1_decision", Cell.nan)]])
        none true
        (fun _ => [("decision", Json.str "pass"), ("exclusion_tags", Json.arr []),
                   ("evidence", Json.null), ("reasoning", Json.str "ok"),
                   ("error", Json.null)])
        (fun _ => "ts") 50).df 0) "L1_decision" = Cell.val (Json.str "exclude") :=
  ⟨rfl, rfl, rfl, rfl⟩

/-! ### Claim theorems: Layer 1 empty-title handling -/

theorem applyL1Steps_preserve (idx j : Nat) (c : String) (hji : j ≠ idx) :
    ∀ (steps : List (String × Except String Json)) (df : List Row),
      ((applyL1Steps df idx steps).length = df.length) ∧
      (rowHas (dfRow df j) c = true →
        rowGet (dfRow (applyL1Steps df idx steps) j) c = rowGet (dfRow df j) c ∧
        rowHas (dfRow (applyL1Steps df idx steps) j) c = true)
  | [], df => ⟨rfl, fun h => ⟨rfl, h⟩⟩
  | (col, Except.ok v) :: rest, df => by
    have ih := applyL1Steps_preserve idx j c hji rest (dfSetAt df idx col (Cell.val v))
    refine ⟨?_, ?_⟩
    · simp only [applyL1Steps]
      rw [ih.1, dfSetAt_length]
    · intro h
      have h1 := dfRow_setAt_other_get df idx j col (Cell.val v) c hji (Or.inl h)
      have h2 := dfRow_setAt_other_has df idx j col (Cell.val v) c hji h
      have := ih.2 h2
      simp only [applyL1Steps]
      exact ⟨by rw [this.1, h1], this.2⟩
  | (col, Except.error e) :: rest, df => by
    refine ⟨?_, ?_⟩
    · simp only [applyL1Steps]
      rw [dfSetAt_length]
    · intro h
      have h1 := dfRow_setAt_other_get df idx j "L1_error"
        (Cell.val (Json.str e)) c hji (Or.inl h)
      have h2 := dfRow_setAt_other_has df idx j "L1_error"
        (Cell.val (Json.str e)) c hji h
      exact ⟨h1, h2⟩

theorem l1ProcessIndex_preserve (df : List Row) (i j : Nat)
    (results : Nat → List (String × Json)) (now : Nat → String) (hji : j ≠ i) :
    ((l1ProcessIndex df i results now).1.length = df.length) ∧
    ∀ c, rowHas (dfRow df j) c = true →
      rowGet (dfRow (l1ProcessIndex df i results now).1 j) c
        = rowGet (dfRow df j) c ∧
      rowHas (dfRow (l1ProcessIndex df i results now).1 j) c = true := by
  by_cases ht : pyStripEmpty (pyStr (rowGet (dfRow df i) "title")) = true
  · simp only [l1ProcessIndex, ht, if_true]
    refine ⟨by simp only [dfSetAt_length], ?_⟩
    intro c h
    have g1 := dfRow_setAt_other_get df i j "L1_decision"
      (Cell.val (Json.str "pass")) c hji (Or.inl h)
    have h1 := dfRow_setAt_other_has df i j "L1_decision"
      (Cell.val (Json.str "pass")) c hji h
    have g2 := dfRow_setAt_other_get _ i j "L1_reasoning"
      (Cell.val (Json.str "No title available")) c hji (Or.inl h1)
    have h2 := dfRow_setAt_other_has _ i j "L1_reasoning"
      (Cell.val (Json.str "No title available")) c hji h1
    have g3 := dfRow_setAt_other_get _ i j "L1_timestamp"
      (Cell.val (Json.str (now i))) c hji (Or.inl h2)
    have h3 := dfRow_setAt_other_has _ i j "L1_timestamp"
      (Cell.val (Json.str (now i))) c hji h2
    exact ⟨by rw [g3, g2, g1], h3⟩
  · simp only [l1ProcessIndex, ht, if_false]
    unfold applyL1Result
    refine ⟨(applyL1Steps_preserve i j "x" hji _ df).1, ?_⟩
    intro c h
    exact (applyL1Steps_preserve i j c hji _ df).2 h

theorem l1RunIndices_preserve (results : Nat → List (String × Json))
    (now : Nat → String) (j : Nat) :
    ∀ (ixs : List Nat) (df : List Row), j ∉ ixs →
      ((l1RunIndices results now ixs df).1.length = df.length) ∧
      (∀ x ∈ (l1RunIndices results now ixs df).2, x ∈ ixs) ∧
      (∀ c, rowHas (dfRow df j) c = true →
        rowGet (dfRow (l1RunIndices results now ixs df).1 j) c
          = rowGet (dfRow df j) c ∧
        rowHas (dfRow (l1RunIndices results now ixs df).1 j) c = true)
  | [], df, _ => ⟨rfl, fun x hx => absurd hx (List.not_mem_nil x), fun _ h => ⟨rfl, h⟩⟩
  | i :: rest, df, hj => by
    have hji : j ≠ i := fun he => hj (he ▸ List.mem_cons_self i rest)
    have hjr : j ∉ rest := fun he => hj (List.mem_cons_of_mem _ he)
    have hstep := l1ProcessIndex_preserve df i j results now hji
    have ih := l1RunIndices_preserve results now j rest
      (l1ProcessIndex df i results now).1 hjr
    refine ⟨?_, ?_, ?_⟩
    · simp only [l1RunIndices]
      rw [ih.1, hstep.1]
    · intro x hx
      simp only [l1RunIndices, List.mem_append] at hx
      rcases hx with hx | hx
      · rcases (by split at hx <;> simp_all : x = i) with rfl
        exact List.mem_cons_self x rest
      · exact List.mem_cons_of_mem _ (ih.2.1 x hx)
    · intro c h
      have h1 := hstep.2 c h
      have h2 := ih.2.2 c h1.2
      simp only [l1RunIndices]
      exact ⟨by rw [h2.1, h1.1], h2.2⟩

theorem rowHas_of_rowGet_str (c s : String) :
    ∀ (r : Row), rowGet r c = Cell.val (Json.str s) → rowHas r c = true
  | [], h => by
    simp only [rowGet] at h
    exact absurd h (by simp)
  | p :: rest, h => by
    by_cases hp : p.1 == c
    · simp [rowHas, hp]
    · simp only [rowGet, hp, if_false] at h
      simp [rowHas, hp, rowHas_of_rowGet_str c s rest h]

theorem dfRow_setAt_self_has_self (df : List Row) (idx : Nat) (k : String)
    (v : Cell) (h : idx < df.length) :
    rowHas (dfRow (dfSetAt df idx k v) idx) k = true := by
  rw [dfRow_setAt_self df idx k v h, rowSet_has]
  simp

theorem l1RunIndices_empty_title (results : Nat → List (String × Json))
    (now : Nat → String) (idx : Nat) (s : String)
    (hws : pyStripEmpty s = true) :
    ∀ (ixs : List Nat) (df : List Row), ixs.Nodup → idx ∈ ixs →
      idx < df.length →
      rowGet (dfRow df idx) "title" = Cell.val (Json.str s) →
      (idx ∉ (l1RunIndices results now ixs df).2) ∧
      rowGet (dfRow (l1RunIndices results now ixs df).1 idx) "L1_decision"
        = Cell.val (Json.str "pass") ∧
      rowGet (dfRow (l1RunIndices results now ixs df).1 idx) "L1_reasoning"
        = Cell.val (Json.str "No title available") ∧
      (∀ c, rowHas (dfRow df idx) c = true → ¬(c = "L1_decision") →
        ¬(c = "L1_reasoning") → ¬(c = "L1_timestamp") →
        rowGet (dfRow (l1RunIndices results now ixs df).1 idx) c
          = rowGet (dfRow df idx) c)
  | [], df, _, hmem, _, _ => absurd hmem (List.not_mem_nil idx)
  | i :: rest, df, hnd, hmem, hlen, htitle => by
    have hndr : rest.Nodup := (List.nodup_cons.mp hnd).2
    by_cases he : i = idx
    · subst he
      have hir : i ∉ rest := (List.nodup_cons.mp hnd).1
      have hcond : pyStripEmpty (pyStr (rowGet (dfRow df i) "title")) = true := by
        rw [htitle]
        exact hws
      have hstep : l1ProcessIndex df i results now =
          (dfSetAt (dfSetAt (dfSetAt df
            i "L1_decision" (Cell.val (Json.str "pass")))
            i "L1_reasoning" (Cell.val (Json.str "No title available")))
            i "L1_timestamp" (Cell.val (Json.str (now i))), false) := by
        simp only [l1ProcessIndex, hcond, if_true]
      have hl1 : i < (dfSetAt df i "L1_decision"
          (Cell.val (Json.str "pass"))).length := by
        rw [dfSetAt_length]; exact hlen
      have hl2 : i < (dfSetAt (dfSetAt df i "L1_decision"
          (Cell.val (Json.str "pass"))) i "L1_reasoning"
          (Cell.val (Json.str "No title available"))).length := by
        rw [dfSetAt_length]; exact hl1
      have hpres := l1RunIndices_preserve results now i rest
        (l1ProcessIndex df i results now).1 hir
      have hdec_val : rowGet (dfRow (l1ProcessIndex df i results now).1 i)
          "L1_decision" = Cell.val (Json.str "pass") := by
        rw [hstep]
        rw [dfRow_setAt_self_get_ne _ _ _ _ _ hl2 (by decide),
            dfRow_setAt_self_get_ne _ _ _ _ _ hl1 (by decide)]
        exact dfRow_setAt_self_get df i _ _ hlen
      have hdec_has : rowHas (dfRow (l1ProcessIndex df i results now).1 i)
          "L1_decision" = true := by
        rw [hstep]
        exact dfRow_setAt_self_has _ _ _ _ _ hl2
          (dfRow_setAt_self_has _ _ _ _ _ hl1
            (dfRow_setAt_self_has_self df i _ _ hlen))
      have hrs_val : rowGet (dfRow (l1ProcessIndex df i results now).1 i)
          "L1_reasoning" = Cell.val (Json.str "No title available") := by
        rw [hstep]
        rw [dfRow_setAt_self_get_ne _ _ _ _ _ hl2 (by decide)]
        exact dfRow_setAt_self_get _ i _ _ hl1
      have hrs_has : rowHas (dfRow (l1ProcessIndex df i results now).1 i)
          "L1_reasoning" = true := by
        rw [hstep]
        exact dfRow_setAt_self_has _ _ _ _ _ hl2
          (dfRow_setAt_self_has_self _ i _ _ hl1)
      refine ⟨?_, ?_, ?_, ?_⟩
      · simp only [l1RunIndices, List.mem_append]
        intro hx
        rcases hx with hx | hx
        · rw [hstep] at hx
          simp at hx
        · exact hir (hpres.2.1 i hx)
      · simp only [l1RunIndices]
        have := (hpres.2.2 "L1_decision" hdec_has).1
        rw [this, hdec_val]
      · simp only [l1RunIndices]
        have := (hpres.2.2 "L1_reasoning" hrs_has).1
        rw [this, hrs_val]
      · intro c hc hc1 hc2 hc3
        have hc_val : rowGet (dfRow (l1ProcessIndex df i results now).1 i) c
            = rowGet (dfRow df i) c := by
          rw [hstep]
          rw [dfRow_setAt_self_get_ne _ _ _ _ _ hl2 (fun h => hc3 h.symm),
              dfRow_setAt_self_get_ne _ _ _ _ _ hl1 (fun h => hc2 h.symm),
              dfRow_setAt_self_get_ne _ _ _ _ _ hlen (fun h => hc1 h.symm)]
        have hc_has : rowHas (dfRow (l1ProcessIndex df i results now).1 i) c
            = true := by
          rw [hstep]
          exact dfRow_setAt_self_has _ _ _ _ _ hl2
            (dfRow_setAt_self_has _ _ _ _ _ hl1
              (dfRow_setAt_self_has _ _ _ _ _ hlen hc))
        simp only [l1RunIndices]
        rw [(hpres.2.2 c hc_has).1, hc_val]
    · have hji : idx ≠ i := fun h => he h.symm
      have hmem' : idx ∈ rest := by
        rcases List.mem_cons.mp hmem with h | h
        · exact absurd h.symm he
        · exact h
      have hstep := l1ProcessIndex_preserve df i idx results now hji
      have hthas : rowHas (dfRow df idx) "title" = true :=
        rowHas_of_rowGet_str "title" s (dfRow df idx) htitle
      have htitle' : rowGet (dfRow (l1ProcessIndex df i results now).1 idx)
          "title" = Cell.val (Json.str s) := by
        rw [(hstep.2 "title" hthas).1]
        exact htitle
      have hlen' : idx < (l1ProcessIndex df i results now).1.length := by
        rw [hstep.1]; exact hlen
      have ih := l1RunIndices_empty_title results now idx s hws rest
        (l1ProcessIndex df i results now).1 hndr hmem' hlen' htitle'
      refine ⟨?_, ?_, ?_, ?_⟩
      · simp only [l1RunIndices, List.mem_append]
        intro hx
        rcases hx with hx | hx
        · split at hx <;> simp_all
        · exact ih.1 hx
      · simp only [l1RunIndices]
        exact ih.2.1
      · simp only [l1RunIndices]
        exact ih.2.2.1
      · intro c hc hc1 hc2 hc3
        have h1 := hstep.2 c hc
        simp only [l1RunIndices]
        rw [ih.2.2.2 c h1.2 hc1 hc2 hc3, h1.1]

theorem l1RunIndices_append (results : Nat → List (String × Json))
    (now : Nat → String) :
    ∀ (xs ys : List Nat) (df : List Row),
      l1RunIndices results now (xs ++ ys) df =
        ((l1RunIndices results now ys (l1RunIndices results now xs df).1).1,
         (l1RunIndices results now xs df).2 ++
           (l1RunIndices results now ys (l1RunIndices results now xs df).1).2)
  | [], ys, df => by simp [l1RunIndices]
  | x :: xs, ys, df => by
    have ih := l1RunIndices_append results now xs ys
      (l1ProcessIndex df x results now).1
    show l1RunIndices results now (x :: (xs ++ ys)) df = _
    simp only [l1RunIndices]
    rw [ih]
    simp [List.append_assoc]

theorem l1RunBatches_join (results : Nat → List (String × Json))
    (now : Nat → String) :
    ∀ (bs : List (List Nat)) (df : List Row),
      (l1RunBatches results now bs df).1 =
        (l1RunIndices results now bs.flatten df).1 ∧
      (l1RunBatches results now bs df).2.1 =
        (l1RunIndices results now bs.flatten df).2
  | [], df => ⟨rfl, rfl⟩
  | b :: bs, df => by
    have ih := l1RunBatches_join results now bs (l1RunIndices results now b df).1
    simp only [l1RunBatches, List.flatten_cons]
    rw [l1RunIndices_append results now b bs.flatten df]
    exact ⟨ih.1, by rw [ih.2]⟩

theorem batchStarts_cons (start total bsz : Nat) (hb : 0 < bsz)
    (hlt : start < total) :
    batchStarts start total bsz = start :: batchStarts (start + bsz) total bsz := by
  unfold batchStarts
  have h1 : total - start + bsz - 1 = (total - start - 1) + bsz := by omega
  have h2 : (total - start + bsz - 1) / bsz = (total - start - 1) / bsz + 1 := by
    rw [h1, Nat.add_div_right _ hb]
  have h3 : (total - (start + bsz) + bsz - 1) / bsz = (total - start - 1) / bsz := by
    by_cases hc : total ≤ start + bsz
    · have e1 : total - (start + bsz) = 0 := by omega
      rw [e1]
      rw [Nat.div_eq_of_lt (by omega), Nat.div_eq_of_lt (by omega)]
    · have e1 : total - (start + bsz) + bsz - 1 = (total - start - 1 - bsz) + bsz := by
        omega
      have e2 : total - start - 1 = (total - start - 1 - bsz) + bsz := by omega
      rw [e1, Nat.add_div_right _ hb]
      conv_rhs => rw [e2, Nat.add_div_right _ hb]
  rw [h2, h3, List.range_succ_eq_map]
  simp only [List.map_cons, List.map_map]
  congr 1
  · simp
  · apply List.map_congr_left
    intro a _
    simp only [Function.comp_apply]
    rw [Nat.succ_mul]
    ring

theorem batchStarts_flatten (bsz total : Nat) (hb : 0 < bsz) :
    ∀ (fuel start : Nat), total - start ≤ fuel →
      ((batchStarts start total bsz).map (fun b =>
        List.range' b (min (b + bsz) total - b))).flatten
        = List.range' start (total - start)
  | 0, start, hf => by
    have e1 : total - start = 0 := by omega
    have e2 : (total - start + bsz - 1) / bsz = 0 := by
      rw [e1]
      exact Nat.div_eq_of_lt (by omega)
    unfold batchStarts
    rw [e2, e1]
    simp
  | fuel + 1, start, hf => by
    by_cases hlt : start < total
    · rw [batchStarts_cons start total bsz hb hlt]
      simp only [List.map_cons, List.flatten_cons]
      rw [batchStarts_flatten bsz total hb fuel (start + bsz) (by omega)]
      by_cases hc : start + bsz ≤ total
      · have e0 : min (start + bsz) total - start = bsz := by omega
        rw [e0, List.range'_append_1 start bsz (total - (start + bsz))]
        congr 1
        omega
      · have e0 : min (start + bsz) total - start = total - start := by omega
        have e1 : total - (start + bsz) = 0 := by omega
        rw [e0, e1]
        simp
    · have e1 : total - start = 0 := by omega
      have e2 : (total - start + bsz - 1) / bsz = 0 := by
        rw [e1]
        exact Nat.div_eq_of_lt (by omega)
      unfold batchStarts
      rw [e2, e1]
      simp

/-- C10: in a fresh Layer 1 run, every row whose title is a
whitespace-only (or empty) string is marked `L1_decision 'pass'` with
`L1_reasoning 'No title available'`, is never submitted to the vendor
API, and keeps all its other input columns unchanged. -/
theorem c10_empty_title_pass (inputRows : List Row)
    (results : Nat → List (String × Json)) (now : Nat → String)
    (answerYes : Bool) (bsz : Nat) (idx : Nat) (s : String)
    (hb : 0 < bsz)
    (hws : pyStripEmpty s = true)
    (hidx : idx < inputRows.length)
    (htitle : rowGet (dfRow inputRows idx) "title" = Cell.val (Json.str s)) :
    (idx ∉ (process_screening inputRows none none answerYes results now
        bsz).submitted) ∧
    rowGet (dfRow (process_screening inputRows none none answerYes results now
        bsz).df idx) "L1_decision" = Cell.val (Json.str "pass") ∧
    rowGet (dfRow (process_screening inputRows none none answerYes results now
        bsz).df idx) "L1_reasoning" = Cell.val (Json.str "No title available") ∧
    ∀ c, rowHas (dfRow inputRows idx) c = true → c ∉ l1NewColumns →
      rowGet (dfRow (process_screening inputRows none none answerYes results now
        bsz).df idx) c = rowGet (dfRow inputRows idx) c := by
  have hbatches : ((batchStarts 0 inputRows.length bsz).map (fun b =>
      List.range' b (min (b + bsz) inputRows.length - b))).flatten
      = List.range' 0 inputRows.length := by
    have := batchStarts_flatten bsz inputRows.length hb inputRows.length 0 (by omega)
    simpa using this
  have hjoin := l1RunBatches_join results now
    ((batchStarts 0 inputRows.length bsz).map (fun b =>
      List.range' b (min (b + bsz) inputRows.length - b)))
    (l1NewColumns.foldl dfAddCol inputRows)
  rw [hbatches] at hjoin
  have hthas : rowHas (dfRow inputRows idx) "title" = true :=
    rowHas_of_rowGet_str "title" s (dfRow inputRows idx) htitle
  have hinit := (addCols_props idx "title" l1NewColumns inputRows).2 hthas
  have htitle0 : rowGet (dfRow (l1NewColumns.foldl dfAddCol inputRows) idx)
      "title" = Cell.val (Json.str s) := by
    rw [hinit.1]
    exact htitle
  have hlen0 : idx < (l1NewColumns.foldl dfAddCol inputRows).length := by
    rw [(addCols_props idx "title" l1NewColumns inputRows).1]
    exact hidx
  have hmem : idx ∈ List.range' 0 inputRows.length := by
    apply List.mem_range'.mpr
    exact ⟨idx, hidx, by omega⟩
  have heffect := l1RunIndices_empty_title results now idx s hws
    (List.range' 0 inputRows.length) (l1NewColumns.foldl dfAddCol inputRows)
    (List.nodup_range' _ _) hmem hlen0 htitle0
  refine ⟨?_, ?_, ?_, ?_⟩
  · simp only [process_screening]
    rw [hjoin.2]
    exact heffect.1
  · simp only [process_screening]
    rw [hjoin.1]
    exact heffect.2.1
  · simp only [process_screening]
    rw [hjoin.1]
    exact heffect.2.2.1
  · intro c hc hcnot
    have hc0 := (addCols_props idx c l1NewColumns inputRows).2 hc
    have hc1 : ¬(c = "L1_decision") := fun h => hcnot (by rw [h]; simp [l1NewColumns])
    have hc2 : ¬(c = "L1_reasoning") := fun h => hcnot (by rw [h]; simp [l1NewColumns])
    have hc3 : ¬(c = "L1_timestamp") := fun h => hcnot (by rw [h]; simp [l1NewColumns])
    simp only [process_screening]
    rw [hjoin.1]
    rw [heffect.2.2.2 c hc0.2 hc1 hc2 hc3]
    exact hc0.1

/-- Witness for `c10_empty_title_pass` at a one-row frame with a
whitespace-only title. -/
theorem c10_empty_title_pass_witness :
    (0 ∉ (process_screening
        [[("title", Cell.val (Json.str " ")), ("abstract", Cell.val (Json.str "A"))]]
        none none true (fun _ => []) (fun _ => "t") 50).submitted) ∧
    rowGet (dfRow (process_screening
        [[("title", Cell.val (Json.str " ")), ("abstract", Cell.val (Json.str "A"))]]
        none none true (fun _ => []) (fun _ => "t") 50).df 0) "L1_decision"
      = Cell.val (Json.str "pass") := by
  have h := c10_empty_title_pass
    [[("title", Cell.val (Json.str " ")), ("abstract", Cell.val (Json.str "A"))]]
    (fun _ => []) (fun _ => "t") true 50 0 " "
    (by omega) rfl (by simp) rfl
  exact ⟨h.1, h.2.1⟩

end RMSC
